import Mathlib

/-!
Verification development for the blastfurnace compiler front-end.

Shallow embedding of the front-end passes:
* `Tp`  — the type-resolution pass (`src/front/passes/types/insert_types.rs`)
* `Sem` — the per-module name resolver (`src/front/semantic/name_resolution/resolver.rs`)
* `Pkg` — the module-merger test scenarios (`src/front/mergers/package.rs`)

Rust `HashMap`s are embedded as association lists, `Rc<T>` as plain values,
`Result`/`panic!` as `Except` with an explicit panic constructor.
-/

/-- Association-list lookup, embedding `HashMap::get`. -/
def alookup {α β : Type} [DecidableEq α] : List (α × β) → α → Option β
  | [], _ => none
  | (k, v) :: rest, a => if k = a then some v else alookup rest a

namespace Tp

/-- Embeds `GlobalResolvedName { module, name }` (module path plus module-resolved name). -/
structure GlobalResolvedName where
  module : String
  name : String
deriving DecidableEq, Repr

/-- Embeds `Reference { raw, module_resolved, global_resolved }` from `front::ast_types`. -/
structure Reference where
  raw : String
  module_resolved : Option String
  global_resolved : Option GlobalResolvedName
deriving DecidableEq, Repr

/-- Embeds `Type` from `front::ast_types` (`Type` is reserved in Lean, hence `Type_`). -/
inductive Type_ where
  | Void
  | Bool
  | Int
  | Float
  | Double
  | String
  | Struct (r : Reference)
deriving DecidableEq, Repr

/-- Embeds `UnOp`. -/
inductive UnOp where
  | Neg | Not | Deref | Ref | PreInc | PreDec | PostInc | PostDec
deriving DecidableEq, Repr

/-- Embeds `BinOp`. -/
inductive BinOp where
  | Add | Sub | Mul | Div | Mod | Eq | Neq | Lt | Gt | Leq | Geq | And | Or
deriving DecidableEq, Repr

/-- Embeds `NamePath { name, path }`: a variable head plus field-access segments. -/
structure NamePath where
  name : Reference
  path : List String
deriving DecidableEq, Repr

mutual
/-- Embeds `Expression { expr, type_ }`; `type_` is filled by the type-resolution pass. -/
inductive Expression where
  | mk (expr : ExpressionEnum) (type_ : Option Type_)

/-- Embeds `ExpressionEnum`. -/
inductive ExpressionEnum where
  | AtomicExpression (a : AtomicExpression)
  | Unary (op : UnOp) (e : Expression)
  | Binary (e0 : Expression) (op : BinOp) (e1 : Expression)

/-- Embeds `AtomicExpression`. -/
inductive AtomicExpression where
  | Literal (l : LiteralValue)
  | Variable (np : NamePath)
  | FnCall (f : FnCall)
  | StructInit (s : StructInit)

/-- Embeds `FnCall { name, args }`. -/
inductive FnCall where
  | mk (name : Reference) (args : List Expression)

/-- Embeds `StructInit { type_ }`: the struct-construction expression; only its `type_`
reference is read by the type-resolution pass. -/
inductive StructInit where
  | mk (type_ : Reference)

/-- Embeds `LiteralValue`. The `f64` payload of `Decimal` is omitted (floating point is
not modelled; no pass inspects it). -/
inductive LiteralValue where
  | Null
  | Bool (b : Bool)
  | Int (n : Int)
  | Decimal
  | String (s : String)
  | Compound (c : List (String × CompoundValue))

/-- Embeds `CompoundValue`. -/
inductive CompoundValue where
  | Expression (e : Expression)
  | Compound (c : List (String × CompoundValue))
end

/-- Projection for `Expression.expr`. -/
def Expression.expr : Expression → ExpressionEnum
  | .mk e _ => e

/-- Projection for `Expression.type_`. -/
def Expression.type_ : Expression → Option Type_
  | .mk _ t => t

/-- Projection for `FnCall.name`. -/
def FnCall.name : FnCall → Reference
  | .mk n _ => n

/-- Projection for `FnCall.args`. -/
def FnCall.args : FnCall → List Expression
  | .mk _ a => a

/-- Projection for `StructInit.type_`. -/
def StructInit.type_ : StructInit → Reference
  | .mk t => t

/-- Embeds `VarDef { name, type_ }` (modifier list omitted; no pass in scope reads it).
`type_` is an `Option` at this stage: the pass fills it from `var_types`. -/
structure VarDef where
  name : Reference
  type_ : Option Type_
deriving Repr

/-- Embeds `VarDecl { var_def, expr }`. -/
structure VarDecl where
  var_def : VarDef
  expr : Option Expression

/-- Embeds `VarAssign { name_path, expr }`. -/
structure VarAssign where
  name_path : NamePath
  expr : Expression

/-- Embeds `StructDef { type_name, fields }` (modifier list omitted). -/
structure StructDef where
  type_name : Reference
  fields : List (String × Type_)

mutual
/-- Embeds `Statement`. -/
inductive Statement where
  | VarDecl (d : VarDecl)
  | VarAssign (a : VarAssign)
  | If (i : If)
  | While (w : While)
  | For (f : For)
  | Return (e : Expression)
  | Break
  | Continue
  | Expression (e : Expression)

/-- Embeds `If { cond, body, else_ }`. -/
inductive If where
  | mk (cond : Expression) (body : Block) (else_ : Option If)

/-- Embeds `While { cond, body }`. -/
inductive While where
  | mk (cond : Expression) (body : Block)

/-- Embeds `For { init, cond, step, body }`. -/
inductive For where
  | mk (init : Option Statement) (cond : Option Expression) (step : Option Statement)
       (body : Block)

/-- Embeds `StatementBlock` from `front::internal_ast_types`. -/
inductive StatementBlock where
  | Statement (s : Statement)
  | Block (b : Block)

/-- Embeds `Block { definitions, statements }` from `front::internal_ast_types`. -/
inductive Block where
  | mk (definitions : List Definition) (statements : List StatementBlock)

/-- Embeds `Definition`. -/
inductive Definition where
  | VarDecl (d : VarDecl)
  | StructDef (s : StructDef)
  | FnDef (f : FnDef)

/-- Embeds `FnDef { name, args, body }` (return type and modifiers omitted; the
type-resolution pass reads only `body.statements`). -/
inductive FnDef where
  | mk (name : Reference) (args : List VarDef) (body : Block)
end

/-- Projection for `Block.definitions`. -/
def Block.definitions : Block → List Definition
  | .mk d _ => d

/-- Projection for `Block.statements`. -/
def Block.statements : Block → List StatementBlock
  | .mk _ s => s

/-- Projection for `FnDef.name`. -/
def FnDef.name : FnDef → Reference
  | .mk n _ _ => n

/-- Projection for `FnDef.args`. -/
def FnDef.args : FnDef → List VarDef
  | .mk _ a _ => a

/-- Projection for `FnDef.body`. -/
def FnDef.body : FnDef → Block
  | .mk _ _ b => b

/-- Replace the statement list of a function body (used by `insert_types`,
which drains and restores `fn_body.body.statements`). -/
def FnDef.setStmts : FnDef → List StatementBlock → FnDef
  | .mk n a (.mk defs _), stmts => .mk n a (.mk defs stmts)

/-- Embeds `DefinitionTable` (§4.D): three maps keyed by global resolved names,
embedded as association lists. -/
structure DefinitionTable where
  function_definitions : List (GlobalResolvedName × FnDef)
  struct_definitions : List (GlobalResolvedName × StructDef)
  global_var_definitions : List (GlobalResolvedName × VarDecl)

/-- Embeds `FrontProgram { definitions, … }`: only the definition table is read or
written by the type-resolution pass. -/
structure FrontProgram where
  definitions : DefinitionTable

/-- Embeds `TypeError`. Modelled from the spec: the `TypeError` enum itself is not
among the provided sources; §7 lists its variants. -/
inductive TypeError where
  | MultipleTypes
  | UnaryMismatch
  | BinaryMismatch
  | BadFieldAccess
  | ReturnMismatch
  | NonBoolCondition
deriving DecidableEq, Repr

/-- Outcome of a visitor step: a Rust `Err(TypeError)` or a Rust `panic!` /
failed `unwrap()`. -/
inductive VErr where
  | typeError (e : TypeError)
  | panic
deriving DecidableEq, Repr

/-- The `var_types` table (`HashMap<Rc<GlobalResolvedName>, Type>`). -/
def VarTypes : Type := List (GlobalResolvedName × Type_)

/-- Embeds `var_types.get` embedding. -/
def vtGet (vt : VarTypes) (g : GlobalResolvedName) : Option Type_ :=
  alookup vt g

/-- Embeds `literal_types`. Modelled from the spec (§4.F): the `type_expression`
module is not among the provided sources. -/
def literal_types : LiteralValue → Type_
  | .Null => .Void
  | .Bool _ => .Bool
  | .Int _ => .Int
  | .Decimal => .Double
  | .String _ => .String
  | .Compound _ => .Void

/-- Embeds `unop_type_resolver`. Modelled from the spec (§4.F table): the
`type_expression` module is not among the provided sources. -/
def unop_type_resolver : UnOp → Type_ → Except TypeError Type_
  | .Neg, .Int => .ok .Int
  | .Neg, .Float => .ok .Float
  | .Neg, .Double => .ok .Double
  | .Not, .Bool => .ok .Bool
  | .Ref, t => .ok t
  | .Deref, t => .ok t
  | .PreInc, .Int => .ok .Int
  | .PreDec, .Int => .ok .Int
  | .PostInc, .Int => .ok .Int
  | .PostDec, .Int => .ok .Int
  | _, _ => .error .UnaryMismatch

/-- Arithmetic operand check used by `binop_type_resolver`. -/
def isArith : Type_ → Bool
  | .Int => true
  | .Float => true
  | .Double => true
  | _ => false

/-- Embeds `binop_type_resolver`. Modelled from the spec (§4.F table): the
`type_expression` module is not among the provided sources. -/
def binop_type_resolver : BinOp → Type_ → Type_ → Except TypeError Type_
  | .Add, t0, t1 => if t0 = t1 ∧ isArith t0 then .ok t0 else .error .BinaryMismatch
  | .Sub, t0, t1 => if t0 = t1 ∧ isArith t0 then .ok t0 else .error .BinaryMismatch
  | .Mul, t0, t1 => if t0 = t1 ∧ isArith t0 then .ok t0 else .error .BinaryMismatch
  | .Div, t0, t1 => if t0 = t1 ∧ isArith t0 then .ok t0 else .error .BinaryMismatch
  | .Mod, .Int, .Int => .ok .Int
  | .Mod, _, _ => .error .BinaryMismatch
  | .Lt, t0, t1 => if t0 = t1 ∧ isArith t0 then .ok .Bool else .error .BinaryMismatch
  | .Gt, t0, t1 => if t0 = t1 ∧ isArith t0 then .ok .Bool else .error .BinaryMismatch
  | .Leq, t0, t1 => if t0 = t1 ∧ isArith t0 then .ok .Bool else .error .BinaryMismatch
  | .Geq, t0, t1 => if t0 = t1 ∧ isArith t0 then .ok .Bool else .error .BinaryMismatch
  | .Eq, t0, t1 => if t0 = t1 then .ok .Bool else .error .BinaryMismatch
  | .Neq, t0, t1 => if t0 = t1 then .ok .Bool else .error .BinaryMismatch
  | .And, .Bool, .Bool => .ok .Bool
  | .And, _, _ => .error .BinaryMismatch
  | .Or, .Bool, .Bool => .ok .Bool
  | .Or, _, _ => .error .BinaryMismatch

/-- Embeds `get_type_from_name_path` (insert_types.rs, lines 11–31); dead code in the
pass (its only call site is commented out).  `none` models a panic: the
`.unwrap()` on a missing field, the `.unwrap()` on an unresolved struct
reference, and the `panic!("Tried to get field of non-struct type")` branch.
Note the faithful quirk: after a non-struct field type, `struct_def` keeps its
previous value, so a following segment is looked up in the previous struct. -/
def get_type_from_name_path_go (structs : List (GlobalResolvedName × StructDef)) :
    List String → Type_ → Option StructDef → Option Type_
  | [], rt, _ => some rt
  | _ :: _, _, none => none
  | seg :: rest, _, some sdef =>
    match alookup sdef.fields seg with
    | none => none
    | some ft =>
      match ft with
      | .Struct r =>
        match r.global_resolved with
        | none => none
        | some g => get_type_from_name_path_go structs rest ft (alookup structs g)
      | _ => get_type_from_name_path_go structs rest ft (some sdef)

/-- Entry point of `get_type_from_name_path`: `return_type` starts as
`Type::Struct(name_path.name)` and `struct_def` as the table lookup of the
head's `global_resolved` (whose `.unwrap()` panics when unresolved). -/
def get_type_from_name_path (np : NamePath)
    (structs : List (GlobalResolvedName × StructDef)) : Option Type_ :=
  match np.name.global_resolved with
  | none => none
  | some g =>
    get_type_from_name_path_go structs np.path (.Struct np.name) (alookup structs g)

/-- Modelled from the spec: `type_of_namepath(np)` (§4.F) — starts at
`var_types[np.name.global_resolved]`, then walks every path segment through
the struct definitions' field maps; missing field or non-struct intermediate
gives `TypeError::BadFieldAccess`.  Stated for comparison with the source's
behavior (refinement claims C3/C4/C6); an unresolved or unbound head is also
mapped to `BadFieldAccess`. -/
def type_of_namepath (vt : VarTypes) (structs : List (GlobalResolvedName × StructDef))
    (np : NamePath) : Except TypeError Type_ :=
  match np.name.global_resolved with
  | none => .error .BadFieldAccess
  | some g =>
    match vtGet vt g with
    | none => .error .BadFieldAccess
    | some t0 => type_of_namepath_go structs np.path t0
where
  /-- Walk the path segments from the head's type. -/
  type_of_namepath_go (structs : List (GlobalResolvedName × StructDef)) :
      List String → Type_ → Except TypeError Type_
  | [], t => .ok t
  | seg :: rest, t =>
    match t with
    | .Struct r =>
      match r.global_resolved with
      | none => .error .BadFieldAccess
      | some g =>
        match alookup structs g with
        | none => .error .BadFieldAccess
        | some sdef =>
          match alookup sdef.fields seg with
          | none => .error .BadFieldAccess
          | some ft => type_of_namepath_go structs rest ft
    | _ => .error .BadFieldAccess

/-- The `ASTNodeEnum::Expression` arm of `ResolvedVarDefTable::apply`
(insert_types.rs, lines 77–116), merged with the generic traversal: the arm
computes the node's type, stores it, and returns `(false, type)` so children
are not revisited generically.  Atoms are handled inline: `Variable` and
`FnCall` read `var_types` at the head's `global_resolved` (both `.unwrap()`s
panic on `None`); FnCall argument expressions are NOT visited. -/
def visitExpr (vt : VarTypes) : Expression → Except VErr (Expression × Type_)
  | .mk (.AtomicExpression a) _ =>
    match a with
    | .Literal l =>
      let t := literal_types l
      .ok (.mk (.AtomicExpression (.Literal l)) (some t), t)
    | .Variable np =>
      match np.name.global_resolved with
      | none => .error .panic
      | some g =>
        match vtGet vt g with
        | none => .error .panic
        | some t => .ok (.mk (.AtomicExpression (.Variable np)) (some t), t)
    | .FnCall fc =>
      match fc.name.global_resolved with
      | none => .error .panic
      | some g =>
        match vtGet vt g with
        | none => .error .panic
        | some t => .ok (.mk (.AtomicExpression (.FnCall fc)) (some t), t)
    | .StructInit si =>
      let t := Type_.Struct si.type_
      .ok (.mk (.AtomicExpression (.StructInit si)) (some t), t)
  | .mk (.Unary op x) _ => do
    let (x', tx) ← visitExpr vt x
    match unop_type_resolver op tx with
    | .ok t => .ok (.mk (.Unary op x') (some t), t)
    | .error te => .error (.typeError te)
  | .mk (.Binary e0 op e1) _ => do
    let (e0', t0) ← visitExpr vt e0
    let (e1', t1) ← visitExpr vt e1
    match binop_type_resolver op t0 t1 with
    | .ok t => .ok (.mk (.Binary e0' op e1') (some t), t)
    | .error te => .error (.typeError te)

/-- The `ASTNodeEnum::VarDef` arm of `apply`: `x.type_ = Some(var_types[x.name
.global_resolved].unwrap())` — both lookups panic on failure. -/
def visitVarDef (vt : VarTypes) (vd : VarDef) : Except VErr VarDef :=
  match vd.name.global_resolved with
  | none => .error .panic
  | some g =>
    match vtGet vt g with
    | none => .error .panic
    | some t => .ok { vd with type_ := some t }

/-- The `ASTNodeEnum::VarDecl` arm of `apply`: visit the `var_def`, then, if an
initializer is present, compare its computed type with `var_def.type_`
(`.unwrap()` panics if still unset); a mismatch is `TypeError::MultipleTypes`. -/
def visitVarDecl (vt : VarTypes) (d : VarDecl) : Except VErr VarDecl := do
  let vd ← visitVarDef vt d.var_def
  match d.expr with
  | none => .ok { var_def := vd, expr := none }
  | some e => do
    let (e', t) ← visitExpr vt e
    match vd.type_ with
    | none => .error .panic
    | some t0 =>
      if t ≠ t0 then .error (.typeError .MultipleTypes)
      else .ok { var_def := vd, expr := some e' }

/-- The `ASTNodeEnum::VarAssign` arm of `apply`: look up the HEAD of the name
path in `var_types` (both `.unwrap()`s panic), then visit the assigned
expression; a mismatch is `TypeError::MultipleTypes`.  The dotted path
segments are ignored (the `get_type_from_name_path` call is commented out). -/
def visitVarAssign (vt : VarTypes) (a : VarAssign) : Except VErr VarAssign :=
  match a.name_path.name.global_resolved with
  | none => .error .panic
  | some g =>
    match vtGet vt g with
    | none => .error .panic
    | some t => do
      let (e', te) ← visitExpr vt a.expr
      if t ≠ te then .error (.typeError .MultipleTypes)
      else .ok { a with expr := e' }

/-- Visiting an optional expression child (absent children are untouched). -/
def visitExprOpt (vt : VarTypes) : Option Expression → Except VErr (Option Expression)
  | none => pure none
  | some e => do
    let (e', _) ← visitExpr vt e
    pure (some e')

mutual
/-- Visiting a `Statement`: the `apply` arm returns `(true, None)`, so the
generic traversal recurses into the node's children. -/
def visitStatement (vt : VarTypes) : Statement → Except VErr Statement
  | .VarDecl d => do
    let d' ← visitVarDecl vt d
    pure (.VarDecl d')
  | .VarAssign a => do
    let a' ← visitVarAssign vt a
    pure (.VarAssign a')
  | .If i => do
    let i' ← visitIf vt i
    pure (.If i')
  | .While w => do
    let w' ← visitWhile vt w
    pure (.While w')
  | .For f => do
    let f' ← visitFor vt f
    pure (.For f')
  | .Return e => do
    let (e', _) ← visitExpr vt e
    pure (.Return e')
  | .Break => pure .Break
  | .Continue => pure .Continue
  | .Expression e => do
    let (e', _) ← visitExpr vt e
    pure (.Expression e')

/-- Visiting an `If`: condition, body, then the optional `else_` chain. -/
def visitIf (vt : VarTypes) : If → Except VErr If
  | .mk cond body else_ => do
    let (cond', _) ← visitExpr vt cond
    let body' ← visitBlock vt body
    let else' ← visitIfOpt vt else_
    pure (.mk cond' body' else')

/-- Visiting an optional `else_` chain. -/
def visitIfOpt (vt : VarTypes) : Option If → Except VErr (Option If)
  | none => pure none
  | some i => do
    let i' ← visitIf vt i
    pure (some i')

/-- Visiting a `While`: condition then body. -/
def visitWhile (vt : VarTypes) : While → Except VErr While
  | .mk cond body => do
    let (cond', _) ← visitExpr vt cond
    let body' ← visitBlock vt body
    pure (.mk cond' body')

/-- Visiting a `For`: optional init statement, optional condition, optional
step statement, then body. -/
def visitFor (vt : VarTypes) : For → Except VErr For
  | .mk init cond step body => do
    let init' ← visitStatementOpt vt init
    let cond' ← visitExprOpt vt cond
    let step' ← visitStatementOpt vt step
    let body' ← visitBlock vt body
    pure (.mk init' cond' step' body')

/-- Visiting an optional statement child (`For.init` / `For.step`). -/
def visitStatementOpt (vt : VarTypes) : Option Statement → Except VErr (Option Statement)
  | none => pure none
  | some s => do
    let s' ← visitStatement vt s
    pure (some s')

/-- Visiting a `StatementBlock`: dispatch to the statement or nested block. -/
def visitStmtBlock (vt : VarTypes) : StatementBlock → Except VErr StatementBlock
  | .Statement s => do
    let s' ← visitStatement vt s
    pure (.Statement s')
  | .Block b => do
    let b' ← visitBlock vt b
    pure (.Block b')

/-- Visiting a `Block`: the `apply` arm returns `(true, None)`;
`ASTNodeEnum::Definition` children return `(false, None)` and are untouched,
so only the statement list is traversed. -/
def visitBlock (vt : VarTypes) : Block → Except VErr Block
  | .mk defs stmts => do
    let stmts' ← visitStmtBlocks vt stmts
    pure (.mk defs stmts')

/-- Visiting the statements of a block in order, stopping at the first error. -/
def visitStmtBlocks (vt : VarTypes) : List StatementBlock → Except VErr (List StatementBlock)
  | [] => pure []
  | sb :: rest => do
    let sb' ← visitStmtBlock vt sb
    let rest' ← visitStmtBlocks vt rest
    pure (sb' :: rest')
end

/-- The per-function loop of `insert_types` (lines 151–173): for each function
in order, drain its statements, visit them, and restore the visited list; on
the first error, RETURN with the failing function's statement list left empty
(the drained statements are not restored) and later functions untouched.
`var_types` is threaded through unchanged (the visitor never inserts). -/
def insertTypesGo (vt : VarTypes) :
    List (GlobalResolvedName × FnDef) → Except VErr Unit × List (GlobalResolvedName × FnDef)
  | [] => (.ok (), [])
  | (n, fd) :: rest =>
    match visitStmtBlocks vt fd.body.statements with
    | .error e => (.error e, (n, fd.setStmts []) :: rest)
    | .ok stmts' =>
      let (r, rest') := insertTypesGo vt rest
      (r, (n, fd.setStmts stmts') :: rest')

/-- Embeds `insert_types(program, var_types)` (insert_types.rs lines 146–175).  The
Rust function mutates the program in place and returns `Result<(), TypeError>`;
the embedding returns the outcome (with explicit panics) together with the
final program state. -/
def insert_types (p : FrontProgram) (vt : VarTypes) :
    Except VErr Unit × FrontProgram :=
  let (r, fns) := insertTypesGo vt p.definitions.function_definitions
  (r, { definitions := { p.definitions with function_definitions := fns } })

end Tp

namespace Sem

/-- Embeds `SymbolType` from `scope_table.rs`: independent lookup namespaces. -/
inductive SymbolType where
  | Var | Fn | Struct
deriving DecidableEq, Repr

/-- Embeds `ResolverError` (resolver.rs, lines 20–24). -/
inductive ResolverError where
  | UndefinedVariable (raw : String)
  | Redefinition (raw : String)
deriving DecidableEq, Repr

/-- Embeds `name_format(raw, index) = "<index>_<raw>"`.  Modelled from the spec
(§4.C): `scope_table.rs` is not among the provided sources. -/
def name_format (raw : String) (i : Nat) : String :=
  toString i ++ "_" ++ raw

/-- One binding in a scope frame. -/
structure Binding where
  raw : String
  kind : SymbolType
  resolved : String
deriving DecidableEq, Repr

/-- Modelled from the spec: the `ScopeTable` of §4.C (`scope_table.rs` is not
among the provided sources).  `frames` is the lexical stack, innermost first,
each frame most-recent-binding first; `counts` is the monotonic per-raw-name
(and per-kind, since kinds are independent namespaces) shadow counter that
survives scope exits. -/
structure ScopeTable where
  frames : List (List Binding)
  counts : List ((String × SymbolType) × Nat)
deriving DecidableEq, Repr

/-- Embeds `scope_enter`: push an empty frame. -/
def scope_enter (st : ScopeTable) : ScopeTable :=
  { st with frames := [] :: st.frames }

/-- Embeds `scope_exit`: pop the top frame. -/
def scope_exit (st : ScopeTable) : ScopeTable :=
  { st with frames := st.frames.tail }

/-- Embeds `scope_lookup(raw, kind)`: search frames top-down, most recent binding of
the requested kind first; `none` when no frame binds the name. -/
def scope_lookup (st : ScopeTable) (raw : String) (kind : SymbolType) : Option String :=
  go st.frames
where
  /-- Search the frame stack. -/
  go : List (List Binding) → Option String
    | [] => none
    | frame :: rest =>
      match frame.find? (fun b => b.raw = raw ∧ b.kind = kind) with
      | some b => some b.resolved
      | none => go rest

/-- Embeds `scope_bind(raw, kind)`: redefining `raw` (same kind) in the top frame is
`Redefinition(raw)`; otherwise mint `name_format(raw, shadow_count)` and push
the binding onto the top frame (an empty stack gets a fresh frame). -/
def scope_bind (st : ScopeTable) (raw : String) (kind : SymbolType) :
    Except ResolverError (String × ScopeTable) :=
  let top := st.frames.headD []
  if (top.find? (fun b => b.raw = raw ∧ b.kind = kind)).isSome then
    .error (.Redefinition raw)
  else
    let n := (alookup st.counts (raw, kind)).getD 0
    let name := name_format raw n
    let top' := { raw := raw, kind := kind, resolved := name } :: top
    let frames' := match st.frames with
      | [] => [top']
      | _ :: rest => top' :: rest
    .ok (name, { frames := frames', counts := ((raw, kind), n + 1) :: st.counts })

/-- Embeds `Reference` as used by the resolver (`front::syntax::ast_types` at this
commit): a raw name and the module-resolved name it receives. -/
structure Reference where
  raw : String
  resolved : Option String
deriving DecidableEq, Repr

/-- Embeds `Type` from `front::syntax::ast_types` (`Type_` for Lean). -/
inductive Type_ where
  | Void | Bool | Int | Float | Double | String
  | Struct (r : Reference)
deriving DecidableEq, Repr

/-- Embeds `NamePath { name, path }`; the path segments are NOT scope-resolved. -/
structure NamePath where
  name : Reference
  path : List String
deriving DecidableEq, Repr

/-- Embeds `UnOp` (operators are ignored by the resolver). -/
inductive UnOp where
  | Neg | Not | Deref | Ref | PreInc | PreDec | PostInc | PostDec
deriving DecidableEq, Repr

/-- Embeds `BinOp`. -/
inductive BinOp where
  | Add | Sub | Mul | Div | Mod | Eq | Neq | Lt | Gt | Leq | Geq | And | Or
deriving DecidableEq, Repr

mutual
/-- Embeds `Expression` (old-style enum, no type annotation field). -/
inductive Expression where
  | AtomicExpression (a : AtomicExpression)
  | Unary (op : UnOp) (e : Expression)
  | Binary (e0 : Expression) (op : BinOp) (e1 : Expression)

/-- Embeds `AtomicExpression`. -/
inductive AtomicExpression where
  | Literal (l : LiteralValue)
  | Variable (np : NamePath)
  | FnCall (f : FnCall)

/-- Embeds `FnCall { name, args }`. -/
inductive FnCall where
  | mk (name : Reference) (args : List Expression)

/-- Embeds `LiteralValue` (`f64` payload of `Decimal` omitted; never inspected). -/
inductive LiteralValue where
  | Null
  | Bool (b : Bool)
  | Int (n : Int)
  | Decimal
  | String (s : String)
  | Compound (c : List (String × CompoundValue))

/-- Embeds `CompoundValue`. -/
inductive CompoundValue where
  | Expression (e : Expression)
  | Compound (c : List (String × CompoundValue))
end

/-- Projection for `FnCall.name`. -/
def FnCall.name : FnCall → Reference
  | .mk n _ => n

/-- Projection for `FnCall.args`. -/
def FnCall.args : FnCall → List Expression
  | .mk _ a => a

/-- Embeds `VarDef { name, type_ }` (modifier list omitted; unused by resolution). -/
structure VarDef where
  name : Reference
  type_ : Type_
deriving DecidableEq, Repr

/-- Embeds `VarDecl { var_def, expr }`. -/
structure VarDecl where
  var_def : VarDef
  expr : Option Expression

/-- Embeds `VarAssign { name_path, expr }`. -/
structure VarAssign where
  name_path : NamePath
  expr : Expression

/-- Embeds `StructDef { type_name, map }` (field map unused by resolution itself). -/
structure StructDef where
  type_name : Reference
  map : List (String × Type_)

mutual
/-- Embeds `Statement` (the variants `resolver.rs` dispatches on, plus the
`_ => {}` catch-all for `Break`/`Continue`). -/
inductive Statement where
  | VarDecl (d : VarDecl)
  | VarAssign (a : VarAssign)
  | StructDef (s : StructDef)
  | FnDef (f : FnDef)
  | If (i : If)
  | While (w : While)
  | For (f : For)
  | Return (e : Expression)
  | Break
  | Continue
  | Expression (e : Expression)

/-- Embeds `FnDef { name, args, body }` (return type and modifiers omitted; unused
by resolution). -/
inductive FnDef where
  | mk (name : Reference) (args : List VarDef) (body : Block)

/-- Embeds `If { cond, body, else_ }`. -/
inductive If where
  | mk (cond : Expression) (body : Block) (else_ : Option If)

/-- Embeds `While { cond, body }`. -/
inductive While where
  | mk (cond : Expression) (body : Block)

/-- Embeds `For { init, cond, step, body }`. -/
inductive For where
  | mk (init : Option Statement) (cond : Option Expression) (step : Option Statement)
       (body : Block)

/-- Embeds `StatementBlock`. -/
inductive StatementBlock where
  | Statement (s : Statement)
  | Block (b : Block)

/-- Embeds `Block { statements }` (`Block::resolve` iterates only `statements`). -/
inductive Block where
  | mk (statements : List StatementBlock)
end

/-- Projection for `Block.statements`. -/
def Block.statements : Block → List StatementBlock
  | .mk s => s

/-- Embeds `NamePath::resolve` (resolver.rs, lines 158–168): look the head up in the
`Var` namespace; fill `resolved` on success, else `UndefinedVariable(raw)`. -/
def resolveNamePath (np : NamePath) (st : ScopeTable) :
    Except ResolverError (NamePath × ScopeTable) :=
  match scope_lookup st np.name.raw .Var with
  | some name => .ok ({ np with name := { np.name with resolved := some name } }, st)
  | none => .error (.UndefinedVariable np.name.raw)

mutual
/-- Embeds `Expression::resolve` (lines 120–137). -/
def resolveExpr : Expression → ScopeTable → Except ResolverError (Expression × ScopeTable)
  | .AtomicExpression a, st => do
    let (a', st') ← resolveAtomic a st
    pure (.AtomicExpression a', st')
  | .Unary op e, st => do
    let (e', st') ← resolveExpr e st
    pure (.Unary op e', st')
  | .Binary e0 op e1, st => do
    let (e0', st') ← resolveExpr e0 st
    let (e1', st'') ← resolveExpr e1 st'
    pure (.Binary e0' op e1', st'')

/-- Embeds `AtomicExpression::resolve` (lines 139–156): only compound literals,
variables, and calls resolve. -/
def resolveAtomic : AtomicExpression → ScopeTable → Except ResolverError (AtomicExpression × ScopeTable)
  | .Literal (.Compound c), st => do
    let (c', st') ← resolveCompound c st
    pure (.Literal (.Compound c'), st')
  | .Literal l, st => pure (.Literal l, st)
  | .Variable np, st => do
    let (np', st') ← resolveNamePath np st
    pure (.Variable np', st')
  | .FnCall fc, st => do
    let (fc', st') ← resolveFnCall fc st
    pure (.FnCall fc', st')

/-- Embeds `FnCall::resolve` (lines 182–196): the function name is looked up in the
`Fn` namespace (else `UndefinedVariable(raw)`), then the arguments resolve. -/
def resolveFnCall : FnCall → ScopeTable → Except ResolverError (FnCall × ScopeTable)
  | .mk name args, st =>
    match scope_lookup st name.raw .Fn with
    | none => .error (.UndefinedVariable name.raw)
    | some n => do
      let (args', st') ← resolveExprList args st
      pure (.mk { name with resolved := some n } args', st')

/-- Argument list of a call, resolved in order. -/
def resolveExprList : List Expression → ScopeTable → Except ResolverError (List Expression × ScopeTable)
  | [], st => pure ([], st)
  | e :: rest, st => do
    let (e', st') ← resolveExpr e st
    let (rest', st'') ← resolveExprList rest st'
    pure (e' :: rest', st'')

/-- Embeds `Compound::resolve` (lines 170–180). -/
def resolveCompound : List (String × CompoundValue) → ScopeTable → Except ResolverError (List (String × CompoundValue) × ScopeTable)
  | [], st => pure ([], st)
  | (k, .Expression e) :: rest, st => do
    let (e', st') ← resolveExpr e st
    let (rest', st'') ← resolveCompound rest st'
    pure ((k, .Expression e') :: rest', st'')
  | (k, .Compound c) :: rest, st => do
    let (c', st') ← resolveCompound c st
    let (rest', st'') ← resolveCompound rest st'
    pure ((k, .Compound c') :: rest', st'')
end

/-- Embeds `Registrable for VarDef` (lines 239–244): bind the name in the `Var`
namespace. -/
def registerVarDef (vd : VarDef) (st : ScopeTable) :
    Except ResolverError (VarDef × ScopeTable) := do
  let (n, st') ← scope_bind st vd.name.raw .Var
  pure ({ vd with name := { vd.name with resolved := some n } }, st')

/-- Embeds `Resolvable for VarDef` (lines 67–79): when the declared type is
`Type::Struct`, fill the struct reference from a `Struct`-namespace lookup,
DEFAULTING to `name_format(raw, 0)` when the lookup fails — no error; then
register the variable itself. -/
def resolveVarDef (vd : VarDef) (st : ScopeTable) :
    Except ResolverError (VarDef × ScopeTable) :=
  let vd1 := match vd.type_ with
    | .Struct sn =>
      let r := match scope_lookup st sn.raw .Struct with
        | some name => some name
        | none => some (name_format sn.raw 0)
      { vd with type_ := .Struct { sn with resolved := r } }
    | _ => vd
  registerVarDef vd1 st

/-- Embeds `Resolvable for VarDecl` (lines 81–90): the initializer expression is
resolved BEFORE the declared variable is bound. -/
def resolveVarDecl (d : VarDecl) (st : ScopeTable) :
    Except ResolverError (VarDecl × ScopeTable) := do
  let (e', st') ← match d.expr with
    | none => pure ((none : Option Expression), st)
    | some e => do
      let (e', st') ← resolveExpr e st
      pure (some e', st')
  let (vd', st'') ← resolveVarDef d.var_def st'
  pure ({ var_def := vd', expr := e' }, st'')

/-- Embeds `Resolvable for VarAssign` (lines 92–99): name path, then expression. -/
def resolveVarAssign (a : VarAssign) (st : ScopeTable) :
    Except ResolverError (VarAssign × ScopeTable) := do
  let (np', st') ← resolveNamePath a.name_path st
  let (e', st'') ← resolveExpr a.expr st'
  pure ({ name_path := np', expr := e' }, st'')

/-- Embeds `Registrable for StructDef` (lines 232–238): bind the type name in the
`Struct` namespace. -/
def resolveStructDef (s : StructDef) (st : ScopeTable) :
    Except ResolverError (StructDef × ScopeTable) := do
  let (n, st') ← scope_bind st s.type_name.raw .Struct
  pure ({ s with type_name := { s.type_name with resolved := some n } }, st')

mutual
/-- Embeds `Statement::resolve` (lines 49–64); `Break`/`Continue` fall to `_ => {}`. -/
def resolveStatement : Statement → ScopeTable → Except ResolverError (Statement × ScopeTable)
  | .VarDecl d, st => do
    let (d', st') ← resolveVarDecl d st
    pure (.VarDecl d', st')
  | .VarAssign a, st => do
    let (a', st') ← resolveVarAssign a st
    pure (.VarAssign a', st')
  | .StructDef s, st => do
    let (s', st') ← resolveStructDef s st
    pure (.StructDef s', st')
  | .FnDef f, st => do
    let (f', st') ← resolveFnDef f st
    pure (.FnDef f', st')
  | .If i, st => do
    let (i', st') ← resolveIf i st
    pure (.If i', st')
  | .While w, st => do
    let (w', st') ← resolveWhile w st
    pure (.While w', st')
  | .For f, st => do
    let (f', st') ← resolveFor f st
    pure (.For f', st')
  | .Return e, st => do
    let (e', st') ← resolveExpr e st
    pure (.Return e', st')
  | .Break, st => pure (.Break, st)
  | .Continue, st => pure (.Continue, st)
  | .Expression e, st => do
    let (e', st') ← resolveExpr e st
    pure (.Expression e', st')

/-- Embeds `Resolvable for FnDef` (lines 109–118): enter a scope, register the
function name (`Fn` namespace) and each argument (`Var` namespace), resolve
the body, exit. -/
def resolveFnDef : FnDef → ScopeTable → Except ResolverError (FnDef × ScopeTable)
  | .mk name args body, st => do
    let st1 := scope_enter st
    let (n, st2) ← scope_bind st1 name.raw .Fn
    let (args', st3) ← registerVarDefs args st2
    let (body', st4) ← resolveBlock body st3
    pure (.mk { name with resolved := some n } args' body', scope_exit st4)

/-- Embeds `Registrable for FnDef`, argument part (lines 248–250). -/
def registerVarDefs : List VarDef → ScopeTable → Except ResolverError (List VarDef × ScopeTable)
  | [], st => pure ([], st)
  | vd :: rest, st => do
    let (vd', st') ← registerVarDef vd st
    let (rest', st'') ← registerVarDefs rest st'
    pure (vd' :: rest', st'')

/-- Embeds `If::resolve` (lines 198–207). -/
def resolveIf : If → ScopeTable → Except ResolverError (If × ScopeTable)
  | .mk cond body else_, st => do
    let (cond', st') ← resolveExpr cond st
    let (body', st'') ← resolveBlock body st'
    match else_ with
    | none => pure (.mk cond' body' none, st'')
    | some i => do
      let (i', st3) ← resolveIf i st''
      pure (.mk cond' body' (some i'), st3)

/-- Embeds `While::resolve` (lines 209–215). -/
def resolveWhile : While → ScopeTable → Except ResolverError (While × ScopeTable)
  | .mk cond body, st => do
    let (cond', st') ← resolveExpr cond st
    let (body', st'') ← resolveBlock body st'
    pure (.mk cond' body', st'')

/-- Embeds `For::resolve` (lines 217–231). -/
def resolveFor : For → ScopeTable → Except ResolverError (For × ScopeTable)
  | .mk init cond step body, st => do
    let (init', st1) ← match init with
      | none => pure ((none : Option Statement), st)
      | some s => do
        let (s', st') ← resolveStatement s st
        pure (some s', st')
    let (cond', st2) ← match cond with
      | none => pure ((none : Option Expression), st1)
      | some e => do
        let (e', st') ← resolveExpr e st1
        pure (some e', st')
    let (step', st3) ← match step with
      | none => pure ((none : Option Statement), st2)
      | some s => do
        let (s', st') ← resolveStatement s st2
        pure (some s', st')
    let (body', st4) ← resolveBlock body st3
    pure (.mk init' cond' step' body', st4)

/-- Embeds `StatementBlock::resolve` (lines 39–47). -/
def resolveStmtBlock : StatementBlock → ScopeTable → Except ResolverError (StatementBlock × ScopeTable)
  | .Statement s, st => do
    let (s', st') ← resolveStatement s st
    pure (.Statement s', st')
  | .Block b, st => do
    let (b', st') ← resolveBlock b st
    pure (.Block b', st')

/-- Embeds `Block::resolve` (lines 28–37): enter a scope, resolve statements, exit. -/
def resolveBlock : Block → ScopeTable → Except ResolverError (Block × ScopeTable)
  | .mk stmts, st => do
    let (stmts', st') ← resolveStmtBlocks stmts (scope_enter st)
    pure (.mk stmts', scope_exit st')

/-- Sequential resolution of a block's statement list. -/
def resolveStmtBlocks : List StatementBlock → ScopeTable → Except ResolverError (List StatementBlock × ScopeTable)
  | [], st => pure ([], st)
  | sb :: rest, st => do
    let (sb', st') ← resolveStmtBlock sb st
    let (rest', st'') ← resolveStmtBlocks rest st'
    pure (sb' :: rest', st'')
end

end Sem

namespace Pkg

/-- Embeds `GlobalResolvedName { module, name }` (`front::syntax::ast_types`, as used
by the merger tests in `package.rs`). -/
structure GlobalResolvedName where
  module : String
  name : String
deriving DecidableEq, Repr

/-- Embeds `Reference { raw, module_resolved, global_resolved }`. -/
structure Reference where
  raw : String
  module_resolved : Option String
  global_resolved : Option GlobalResolvedName
deriving DecidableEq, Repr

/-- Embeds `Type` (only `Void` occurs in the merger tests). -/
inductive Type_ where
  | Void | Bool | Int | Float | Double | String
deriving DecidableEq, Repr

mutual
/-- Embeds `Expression` (the fragment the merger tests construct). -/
inductive Expression where
  | AtomicExpression (a : AtomicExpression)

/-- Embeds `AtomicExpression`. -/
inductive AtomicExpression where
  | FnCall (f : FnCall)

/-- Embeds `FnCall { name, args }`. -/
inductive FnCall where
  | mk (name : Reference) (args : List Expression)
end

/-- Embeds `Statement` (the fragment the merger tests construct). -/
inductive Statement where
  | Expression (e : Expression)

/-- Embeds `StatementBlock`. -/
inductive StatementBlock where
  | Statement (s : Statement)

/-- Embeds `Block { definitions, statements }`; the tests build empty definition
lists, so the element type of `definitions` is irrelevant and kept abstract
as `Unit`. -/
structure Block where
  definitions : List Unit
  statements : List StatementBlock

/-- Embeds `FnDef { name, return_type, body, mods, args }` (the merger tests compare
whole `FnDef` values; `mods` entries never occur, kept as `Unit`). -/
structure FnDef where
  name : Reference
  return_type : Type_
  body : Option Block
  mods : List Unit
  args : List Unit

/-- The key `{module:"/root", name:"0_main"}` asserted by the merger tests. -/
def gr_main : GlobalResolvedName := { module := "/root", name := "0_main" }

/-- The key `{module:"/root/test/example", name:"0_a"}`. -/
def gr_a : GlobalResolvedName := { module := "/root/test/example", name := "0_a" }

/-- The call-site reference asserted by `test_import_files` (package.rs,
lines 141–148): note the module is `"/test/example"`, without the `/root`
prefix. -/
def import_files_call_ref : Reference :=
  { raw := "a",
    module_resolved := some "0_a",
    global_resolved := some { module := "/test/example", name := "0_a" } }

/-- The `main` function `test_import_files` asserts for key `gr_main`
(package.rs, lines 128–156): body is the single call statement `a();`. -/
def import_files_expected_main : FnDef :=
  { name := { raw := "main", module_resolved := some "0_main",
              global_resolved := some gr_main },
    return_type := .Void,
    body := some { definitions := [],
                   statements := [.Statement (.Expression (.AtomicExpression
                     (.FnCall (.mk import_files_call_ref []))))] },
    mods := [],
    args := [] }

/-- The `a` function `test_import_files` (and `test_parse_files`) asserts for
key `gr_a` (package.rs, lines 163–179): empty body. -/
def import_files_expected_a : FnDef :=
  { name := { raw := "a", module_resolved := some "0_a",
              global_resolved := some gr_a },
    return_type := .Void,
    body := some { definitions := [], statements := [] },
    mods := [],
    args := [] }

/-- The merged private `function_definitions` table asserted by
`test_import_files`: exactly two entries (`len() == 2` plus the two lookups). -/
def import_files_table : List (GlobalResolvedName × FnDef) :=
  [(gr_main, import_files_expected_main), (gr_a, import_files_expected_a)]

/-- The call-site reference asserted by `test_import_cross_package`
(package.rs, lines 215–222): module `"std/test/example"`. -/
def cross_package_call_ref : Reference :=
  { raw := "a",
    module_resolved := some "0_a",
    global_resolved := some { module := "std/test/example", name := "0_a" } }

/-- The first statement of `main`'s body asserted by
`test_import_cross_package` (package.rs, lines 203–226). -/
def cross_package_expected_stmt : StatementBlock :=
  .Statement (.Expression (.AtomicExpression (.FnCall (.mk cross_package_call_ref []))))

/-- The merged private `function_definitions` table of
`test_import_cross_package`.  Modelled from the source tests: the test
asserts `len() == 2`, and the same three module files are hoisted as in
`test_parse_files` / `test_import_files`, which pin the two keys `gr_main`
and `gr_a`; `main`'s body holds the cross-package call statement. -/
def cross_package_table : List (GlobalResolvedName × FnDef) :=
  [(gr_main,
    { import_files_expected_main with
        body := some { definitions := [], statements := [cross_package_expected_stmt] } }),
   (gr_a, import_files_expected_a)]

/-- Extract the `global_resolved` name carried by the call at the head of a
function's body (the statement the import tests assert on). -/
def first_call_global (f : FnDef) : Option GlobalResolvedName :=
  match f.body with
  | none => none
  | some b =>
    match b.statements with
    | .Statement (.Expression (.AtomicExpression (.FnCall (.mk name _)))) :: _ =>
      name.global_resolved
    | _ => none

end Pkg

namespace Tp

/-- Global name of the example variable `x` in module `/root`. -/
def grnX : GlobalResolvedName := ⟨"/root", "0_x"⟩

/-- Reference of the example variable `x`. -/
def refX : Reference := ⟨"x", some "0_x", some grnX⟩

/-- Global name of the example struct `A`. -/
def grnA : GlobalResolvedName := ⟨"/root", "0_A"⟩

/-- Reference of the example struct `A`. -/
def refA : Reference := ⟨"A", some "0_A", some grnA⟩

/-- Global name of the example function `f`. -/
def grnF : GlobalResolvedName := ⟨"/root", "0_f"⟩

/-- Reference of the example function `f`. -/
def refF : Reference := ⟨"f", some "0_f", some grnF⟩

/-- Global name of the example function `main`. -/
def grnMain : GlobalResolvedName := ⟨"/root", "0_main"⟩

/-- Reference of the example function `main`. -/
def refMain : Reference := ⟨"main", some "0_main", some grnMain⟩

/-- Example struct `A { f: Int }`. -/
def structA : StructDef := ⟨refA, [("f", Type_.Int)]⟩

/-- Struct table holding only `A`. -/
def structsA : List (GlobalResolvedName × StructDef) := [(grnA, structA)]

/-- The dotted name path `x.f`. -/
def npXf : NamePath := ⟨refX, ["f"]⟩

/-- Embeds `var_types` where `x : Struct A`. -/
def vtStruct : VarTypes := [(grnX, .Struct refA)]

/-- Embeds `var_types` where `x : Int`. -/
def vtInt : VarTypes := [(grnX, .Int)]

/-- Embeds `var_types` where `f : Void` (a function's recorded return type). -/
def vtF : VarTypes := [(grnF, .Void)]

/-- The integer literal `1`, untyped. -/
def litOne : Expression := .mk (.AtomicExpression (.Literal (.Int 1))) none

/-- The expression `x.f`, untyped. -/
def exprXf : Expression := .mk (.AtomicExpression (.Variable npXf)) none

end Tp

/-- C3 (counterexample): typing the expression `x.f` where `x : Struct A` and
`A.f : Int` annotates it with `Struct A` — the HEAD variable's own type —
although walking the path per the spec's `type_of_namepath` yields `Int`. -/
theorem C3_counterexample :
    Tp.visitExpr Tp.vtStruct Tp.exprXf
      = .ok (.mk (.AtomicExpression (.Variable Tp.npXf)) (some (.Struct Tp.refA)),
             .Struct Tp.refA)
    ∧ Tp.type_of_namepath Tp.vtStruct Tp.structsA Tp.npXf = .ok .Int
    ∧ Tp.Type_.Struct Tp.refA ≠ Tp.Type_.Int := by
  refine ⟨rfl, rfl, by decide⟩

/-- C3 (amended): for every `Variable(NamePath)` expression whose head
resolves in `var_types`, type resolution annotates the expression with the
head variable's own type from `var_types`, ignoring the path segments
(`get_type_from_name_path` is not called). -/
theorem C3_theorem (vt : Tp.VarTypes) (np : Tp.NamePath) (g : Tp.GlobalResolvedName)
    (t : Tp.Type_) (τ : Option Tp.Type_)
    (h1 : np.name.global_resolved = some g) (h2 : Tp.vtGet vt g = some t) :
    Tp.visitExpr vt (.mk (.AtomicExpression (.Variable np)) τ)
      = .ok (.mk (.AtomicExpression (.Variable np)) (some t), t) := by
  simp [Tp.visitExpr, h1, h2]

/-- C3 (witness): the amended theorem applied to the concrete `x.f` example. -/
theorem C3_witness :
    Tp.visitExpr Tp.vtStruct (.mk (.AtomicExpression (.Variable Tp.npXf)) none)
      = .ok (.mk (.AtomicExpression (.Variable Tp.npXf)) (some (.Struct Tp.refA)),
             .Struct Tp.refA) :=
  C3_theorem Tp.vtStruct Tp.npXf Tp.grnX (.Struct Tp.refA) none rfl rfl

/-- C4 (counterexample): for the assignment `x.f = 1` with `x : Struct A`,
`A.f : Int`, the walked type (`Int`) EQUALS the assigned expression's type
(`Int`), yet the checker returns `MultipleTypes`, because it compares the
head's type `Struct A` instead of the walked type. -/
theorem C4_counterexample :
    Tp.visitStatement Tp.vtStruct (.VarAssign ⟨Tp.npXf, Tp.litOne⟩)
      = .error (.typeError .MultipleTypes)
    ∧ Tp.type_of_namepath Tp.vtStruct Tp.structsA Tp.npXf = .ok .Int
    ∧ Tp.visitExpr Tp.vtStruct Tp.litOne
      = .ok (.mk (.AtomicExpression (.Literal (.Int 1))) (some .Int), .Int) := by
  refine ⟨rfl, rfl, rfl⟩

/-- C4 (amended): for every `VarAssign`, the checker compares the HEAD
variable's `var_types` entry (ignoring field-access segments) with the
assigned expression's type, and returns `MultipleTypes` exactly when those
two differ. -/
theorem C4_theorem (vt : Tp.VarTypes) (a : Tp.VarAssign) (g : Tp.GlobalResolvedName)
    (t : Tp.Type_) (e' : Tp.Expression) (te : Tp.Type_)
    (h1 : a.name_path.name.global_resolved = some g)
    (h2 : Tp.vtGet vt g = some t)
    (h3 : Tp.visitExpr vt a.expr = .ok (e', te)) :
    Tp.visitStatement vt (.VarAssign a)
      = if t = te then .ok (.VarAssign { a with expr := e' })
        else .error (.typeError .MultipleTypes) := by
  by_cases h : t = te <;>
    simp [Tp.visitStatement, Tp.visitVarAssign, h1, h2, h3, h,
      bind, Except.bind, Functor.map, Except.map, pure, Except.pure]

/-- C4 (witness): the amended theorem applied to the concrete `x.f = 1`
example (head type `Struct A` differs from `Int`, so `MultipleTypes`). -/
theorem C4_witness :
    Tp.visitStatement Tp.vtStruct (.VarAssign ⟨Tp.npXf, Tp.litOne⟩)
      = if Tp.Type_.Struct Tp.refA = Tp.Type_.Int
        then .ok (.VarAssign
               ⟨Tp.npXf, .mk (.AtomicExpression (.Literal (.Int 1))) (some .Int)⟩)
        else .error (.typeError .MultipleTypes) :=
  C4_theorem Tp.vtStruct ⟨Tp.npXf, Tp.litOne⟩ Tp.grnX (.Struct Tp.refA)
    (.mk (.AtomicExpression (.Literal (.Int 1))) (some .Int)) .Int rfl rfl rfl


namespace Tp

/-- The example function `main` whose body is the single statement `x.f;`
(`x : Int`, so per the spec the field access is ill-typed). -/
def fnMainXf : FnDef :=
  .mk refMain [] (.mk [] [.Statement (.Expression exprXf)])

/-- A `FrontProgram` holding only `fnMainXf`; its struct table is empty. -/
def progXf : FrontProgram := ⟨⟨[(grnMain, fnMainXf)], [], []⟩⟩

end Tp

/-- C6 (counterexample): typing the dotted name path `x.f` where `x : Int`
(a non-struct intermediate, `BadFieldAccess` per the spec's walk) makes
`insert_types` return `Ok` — no `BadFieldAccess` error is produced, because
the pass ignores path segments. -/
theorem C6_counterexample :
    (Tp.insert_types Tp.progXf Tp.vtInt).1 = .ok ()
    ∧ Tp.type_of_namepath Tp.vtInt [] Tp.npXf = .error .BadFieldAccess := by
  refine ⟨rfl, rfl⟩

/-- C6 (amended): when typing a dotted name path the pass ignores the
segments entirely — the `Variable` case returns the head's `var_types` type
or panics on a missing binding, never a `TypeError` (in particular never
`BadFieldAccess`); the helper `get_type_from_name_path`, whose only call site
is commented out, PANICS on a non-struct head (`x : Int` absent from the
struct table) and on a missing field, instead of returning `BadFieldAccess`. -/
theorem C6_theorem :
    (∀ (vt : Tp.VarTypes) (np : Tp.NamePath) (τ : Option Tp.Type_),
      Tp.visitExpr vt (.mk (.AtomicExpression (.Variable np)) τ)
        = match np.name.global_resolved with
          | none => .error .panic
          | some g =>
            match Tp.vtGet vt g with
            | none => .error .panic
            | some t => .ok (.mk (.AtomicExpression (.Variable np)) (some t), t))
    ∧ Tp.get_type_from_name_path Tp.npXf [] = none
    ∧ Tp.get_type_from_name_path ⟨Tp.refX, ["g"]⟩
        [(Tp.grnX, ⟨Tp.refX, [("f", Tp.Type_.Int)]⟩)] = none := by
  refine ⟨fun vt np τ => rfl, rfl, rfl⟩

/-- C1 (counterexample): in the local-import scenario, the call-site
reference inside `main`'s body (as asserted by the source test
`test_import_files`) does NOT carry
`global_resolved = {module:"/root/test/example", name:"0_a"}`. -/
theorem C1_counterexample :
    Pkg.first_call_global Pkg.import_files_expected_main
      ≠ some ⟨"/root/test/example", "0_a"⟩ := by
  decide

/-- C1 (amended): in the local-import scenario the call-site reference inside
`main`'s body carries `global_resolved = {module:"/test/example", name:"0_a"}`
— the local-package rewrite drops the leading `root` segment without adding
the `/root` prefix, so the reference's module differs from the key
`/root/test/example` under which the target definition is stored. -/
theorem C1_theorem :
    Pkg.first_call_global Pkg.import_files_expected_main
      = some ⟨"/test/example", "0_a"⟩
    ∧ (Pkg.import_files_table.map (fun e => e.1)
        = [⟨"/root", "0_main"⟩, ⟨"/root/test/example", "0_a"⟩]) := by
  refine ⟨rfl, rfl⟩

/-- C7: a `use std::test::example::a` import (foreign package `std`) resolves
the call-site reference to `GlobalName { module: "std/test/example", name:
"0_a" }`, and the merged definition table records no entry for the foreign
module (its two entries are the local `/root` and `/root/test/example`
functions). -/
theorem C7_theorem :
    Pkg.first_call_global (Pkg.cross_package_table.headD (Pkg.gr_a, Pkg.import_files_expected_a)).2
      = some ⟨"std/test/example", "0_a"⟩
    ∧ (Pkg.cross_package_table.all
        (fun e => e.1.module != "std/test/example")) = true
    ∧ Pkg.cross_package_table.length = 2 := by
  refine ⟨rfl, rfl, rfl⟩


namespace Sem

/-- A scope table with a single empty frame. -/
def st0 : ScopeTable := ⟨[[]], []⟩

/-- Example `VarDef` declaring `v : A` where `A` is an (unbound) struct name. -/
def vdA : VarDef := ⟨⟨"v", none⟩, .Struct ⟨"A", none⟩⟩

/-- A scope table whose top frame already binds the variable `v`. -/
def stV : ScopeTable := ⟨[[⟨"v", .Var, "0_v"⟩]], [(("v", .Var), 1)]⟩

/-- A scope table whose top frame binds the variable `x` as `0_x`. -/
def stX : ScopeTable := ⟨[[⟨"x", .Var, "0_x"⟩]], [(("x", .Var), 1)]⟩

/-- Helper: `scope_bind` can only fail with `Redefinition(raw)`. -/
theorem scope_bind_error {st : ScopeTable} {raw : String} {kind : SymbolType}
    {e : ResolverError} (h : scope_bind st raw kind = .error e) :
    e = .Redefinition raw := by
  simp only [scope_bind] at h
  split at h
  · injection h with h2
    exact h2.symm
  · exact Except.noConfusion h

/-- Helper: `registerVarDef` (hence `resolveVarDef`) can only fail with
`Redefinition`, coming from `scope_bind`. -/
theorem registerVarDef_error {vd : VarDef} {st : ScopeTable} {e : ResolverError}
    (h : registerVarDef vd st = .error e) : ∃ r, e = .Redefinition r := by
  unfold registerVarDef at h
  cases hb : scope_bind st vd.name.raw .Var with
  | error e2 =>
    rw [hb] at h
    simp only [bind, Except.bind] at h
    injection h with h2
    exact ⟨vd.name.raw, h2 ▸ scope_bind_error hb⟩
  | ok p =>
    rw [hb] at h
    simp [bind, Except.bind, pure, Except.pure] at h

end Sem

/-- C5 (counterexample): a `VarDef` declaring `v : A`, resolved in a scope
with NO binding for the struct name `A`, does not fail with
`UndefinedVariable("A")`: it succeeds, defaulting the struct reference to
`name_format("A", 0) = "0_A"`. -/
theorem C5_counterexample :
    Sem.resolveVarDef Sem.vdA Sem.st0
      = .ok (⟨⟨"v", some "0_v"⟩, .Struct ⟨"A", some "0_A"⟩⟩,
             ⟨[[⟨"v", .Var, "0_v"⟩]], [(("v", .Var), 1)]⟩)
    ∧ Sem.scope_lookup Sem.st0 "A" .Struct = none := by
  refine ⟨rfl, rfl⟩

/-- C5 (amended): a reference with no binding of the expected kind fails with
`UndefinedVariable(raw)` for variable references at the head of a `NamePath`
and for function references in a `FnCall`; but a struct reference appearing
as a `VarDef`'s declared `Type::Struct` never fails that way — an unbound
struct name silently defaults to `name_format(raw, 0)`, and `resolveVarDef`
can only fail with `Redefinition` (from binding the variable itself). -/
theorem C5_theorem :
    (∀ (st : Sem.ScopeTable) (np : Sem.NamePath),
      Sem.scope_lookup st np.name.raw .Var = none →
      Sem.resolveNamePath np st = .error (.UndefinedVariable np.name.raw))
    ∧ (∀ (st : Sem.ScopeTable) (name : Sem.Reference) (args : List Sem.Expression),
      Sem.scope_lookup st name.raw .Fn = none →
      Sem.resolveFnCall (.mk name args) st = .error (.UndefinedVariable name.raw))
    ∧ (∀ (st : Sem.ScopeTable) (vd : Sem.VarDef) (sn : Sem.Reference),
      vd.type_ = .Struct sn →
      Sem.scope_lookup st sn.raw .Struct = none →
      Sem.resolveVarDef vd st
        = Sem.registerVarDef
            { vd with type_ := .Struct { sn with resolved := some (Sem.name_format sn.raw 0) } } st)
    ∧ (∀ (st : Sem.ScopeTable) (vd : Sem.VarDef) (e : Sem.ResolverError),
      Sem.resolveVarDef vd st = .error e → ∃ r, e = .Redefinition r) := by
  refine ⟨?_, ?_, ?_, ?_⟩
  · intro st np h
    simp [Sem.resolveNamePath, h]
  · intro st name args h
    simp [Sem.resolveFnCall, h]
  · intro st vd sn h1 h2
    simp [Sem.resolveVarDef, h1, h2]
  · intro st vd e h
    unfold Sem.resolveVarDef at h
    exact Sem.registerVarDef_error h

/-- C5 (witness): the amended theorem at concrete inputs — unbound `x` as a
name-path head, unbound `f` in a call (both `UndefinedVariable`), the
defaulted struct reference of `v : A`, and the `Redefinition`-only error
shape at a table that already binds `v`. -/
theorem C5_witness :
    Sem.resolveNamePath ⟨⟨"x", none⟩, []⟩ Sem.st0 = .error (.UndefinedVariable "x")
    ∧ Sem.resolveFnCall (.mk ⟨"f", none⟩ []) Sem.st0 = .error (.UndefinedVariable "f")
    ∧ Sem.resolveVarDef Sem.vdA Sem.st0
        = Sem.registerVarDef ⟨⟨"v", none⟩, .Struct ⟨"A", some (Sem.name_format "A" 0)⟩⟩ Sem.st0
    ∧ ∃ r, Sem.ResolverError.Redefinition "v" = .Redefinition r :=
  ⟨C5_theorem.1 Sem.st0 ⟨⟨"x", none⟩, []⟩ rfl,
   C5_theorem.2.1 Sem.st0 ⟨"f", none⟩ [] rfl,
   C5_theorem.2.2.1 Sem.st0 Sem.vdA ⟨"A", none⟩ rfl rfl,
   C5_theorem.2.2.2 Sem.stV Sem.vdA (.Redefinition "v") rfl⟩

/-- C10: in `VarDecl` resolution the initializer is resolved BEFORE the
declared variable is bound: for `let x = e` with `e` an occurrence of the raw
name `x`, that occurrence resolves against the scope table as it was before
the declaration — to a prior binding of `x` when one exists, and to
`UndefinedVariable(x)` otherwise — never to the variable being declared. -/
theorem C10_theorem (st : Sem.ScopeTable) (vdef : Sem.VarDef) (np : Sem.NamePath)
    (_hx : np.name.raw = vdef.name.raw) :
    Sem.resolveVarDecl ⟨vdef, some (.AtomicExpression (.Variable np))⟩ st
      = match Sem.scope_lookup st np.name.raw .Var with
        | none => .error (.UndefinedVariable np.name.raw)
        | some r =>
          (Sem.resolveVarDef vdef st).map (fun p =>
            (⟨p.1, some (.AtomicExpression (.Variable
                { np with name := { np.name with resolved := some r } }))⟩, p.2)) := by
  cases h : Sem.scope_lookup st np.name.raw .Var with
  | none =>
    simp [Sem.resolveVarDecl, Sem.resolveExpr, Sem.resolveAtomic, Sem.resolveNamePath, h,
      bind, Except.bind, pure, Except.pure]
  | some r =>
    cases h2 : Sem.resolveVarDef vdef st with
    | error e =>
      simp [Sem.resolveVarDecl, Sem.resolveExpr, Sem.resolveAtomic, Sem.resolveNamePath,
        h, h2, bind, Except.bind, pure, Except.pure, Except.map]
    | ok p =>
      simp [Sem.resolveVarDecl, Sem.resolveExpr, Sem.resolveAtomic, Sem.resolveNamePath,
        h, h2, bind, Except.bind, pure, Except.pure, Except.map]

/-- C10 (witness): the theorem for `let x = x` in a scope whose table already
binds `x` as `0_x`: the initializer occurrence resolves to the prior `0_x`. -/
theorem C10_witness :
    Sem.resolveVarDecl ⟨⟨⟨"x", none⟩, .Int⟩,
        some (.AtomicExpression (.Variable ⟨⟨"x", none⟩, []⟩))⟩ Sem.stX
      = match Sem.scope_lookup Sem.stX "x" .Var with
        | none => .error (.UndefinedVariable "x")
        | some r =>
          (Sem.resolveVarDef ⟨⟨"x", none⟩, .Int⟩ Sem.stX).map (fun p =>
            (⟨p.1, some (.AtomicExpression (.Variable
                ⟨⟨"x", some r⟩, []⟩))⟩, p.2)) :=
  C10_theorem Sem.stX ⟨⟨"x", none⟩, .Int⟩ ⟨⟨"x", none⟩, []⟩ rfl


namespace Tp

/-- Every expression node the pass visits is annotated: `type_` is `some` at
the node itself and recursively under `Unary`/`Binary` operands.  Argument
expressions of `FnCall` atoms and expressions nested inside compound literals
are NOT visited by the pass and are therefore not constrained. -/
def exprTypedB : Expression → Bool
  | .mk e t =>
    t.isSome && (match e with
      | .AtomicExpression _ => true
      | .Unary _ x => exprTypedB x
      | .Binary e0 _ e1 => exprTypedB e0 && exprTypedB e1)

/-- Lift of `exprTypedB` to an optional expression. -/
def exprOptTypedB : Option Expression → Bool
  | none => true
  | some e => exprTypedB e

mutual
/-- All expressions in visited positions of a statement are annotated. -/
def stmtTypedB : Statement → Bool
  | .VarDecl d => (match d.expr with | none => true | some e => exprTypedB e)
  | .VarAssign a => exprTypedB a.expr
  | .If i => ifTypedB i
  | .While w => whileTypedB w
  | .For f => forTypedB f
  | .Return e => exprTypedB e
  | .Break => true
  | .Continue => true
  | .Expression e => exprTypedB e

/-- All expressions in visited positions of an `If` are annotated. -/
def ifTypedB : If → Bool
  | .mk c b els => exprTypedB c && blockTypedB b && ifOptTypedB els

/-- Lift of `ifTypedB` to an optional `else_` chain. -/
def ifOptTypedB : Option If → Bool
  | none => true
  | some i => ifTypedB i

/-- All expressions in visited positions of a `While` are annotated. -/
def whileTypedB : While → Bool
  | .mk c b => exprTypedB c && blockTypedB b

/-- All expressions in visited positions of a `For` are annotated. -/
def forTypedB : For → Bool
  | .mk i c s b =>
    stmtOptTypedB i && exprOptTypedB c && stmtOptTypedB s && blockTypedB b

/-- Lift of `stmtTypedB` to an optional statement. -/
def stmtOptTypedB : Option Statement → Bool
  | none => true
  | some s0 => stmtTypedB s0

/-- All expressions in visited positions of a `StatementBlock` are annotated. -/
def sbTypedB : StatementBlock → Bool
  | .Statement s => stmtTypedB s
  | .Block b => blockTypedB b

/-- All expressions in visited positions of a `Block` are annotated. -/
def blockTypedB : Block → Bool
  | .mk _ stmts => sbsTypedB stmts

/-- All expressions in visited positions of a statement list are annotated. -/
def sbsTypedB : List StatementBlock → Bool
  | [] => true
  | sb :: rest => sbTypedB sb && sbsTypedB rest
end

/-- A successful expression visit annotates the node (and its operand chain)
and records the computed type at the node. -/
theorem visitExpr_typed (vt : VarTypes) :
    ∀ (e e' : Expression) (t : Type_),
      visitExpr vt e = .ok (e', t) → exprTypedB e' = true ∧ e'.type_ = some t
  | .mk (.AtomicExpression a) τ, e', t, h => by
    cases a with
    | Literal l =>
      simp only [visitExpr] at h
      obtain ⟨rfl, rfl⟩ := by simpa using h
      simp [exprTypedB, Expression.type_]
    | Variable np =>
      simp only [visitExpr] at h
      split at h
      next => simp at h
      next g hg =>
        split at h
        next => simp at h
        next t0 hv =>
          obtain ⟨rfl, rfl⟩ := by simpa using h
          simp [exprTypedB, Expression.type_]
    | FnCall fc =>
      simp only [visitExpr] at h
      split at h
      next => simp at h
      next g hg =>
        split at h
        next => simp at h
        next t0 hv =>
          obtain ⟨rfl, rfl⟩ := by simpa using h
          simp [exprTypedB, Expression.type_]
    | StructInit si =>
      simp only [visitExpr] at h
      obtain ⟨rfl, rfl⟩ := by simpa using h
      simp [exprTypedB, Expression.type_]
  | .mk (.Unary op x) τ, e', t, h => by
    simp only [visitExpr] at h
    cases hx : visitExpr vt x with
    | error e1 =>
      rw [hx] at h
      simp [bind, Except.bind] at h
    | ok p =>
      obtain ⟨x', tx⟩ := p
      rw [hx] at h
      simp only [bind, Except.bind] at h
      cases hu : unop_type_resolver op tx with
      | error te => rw [hu] at h; simp at h
      | ok t0 =>
        rw [hu] at h
        obtain ⟨rfl, rfl⟩ := by simpa using h
        have ih := visitExpr_typed vt x x' tx hx
        simp [exprTypedB, Expression.type_, ih.1]
  | .mk (.Binary e0 op e1) τ, e', t, h => by
    simp only [visitExpr] at h
    cases h0 : visitExpr vt e0 with
    | error er =>
      rw [h0] at h
      simp [bind, Except.bind] at h
    | ok p0 =>
      obtain ⟨e0', t0⟩ := p0
      rw [h0] at h
      simp only [bind, Except.bind] at h
      cases h1 : visitExpr vt e1 with
      | error er =>
        rw [h1] at h
        simp [bind, Except.bind] at h
      | ok p1 =>
        obtain ⟨e1', t1⟩ := p1
        rw [h1] at h
        simp only [bind, Except.bind] at h
        cases hb : binop_type_resolver op t0 t1 with
        | error te => rw [hb] at h; simp at h
        | ok tr =>
          rw [hb] at h
          obtain ⟨rfl, rfl⟩ := by simpa using h
          have ih0 := visitExpr_typed vt e0 e0' t0 h0
          have ih1 := visitExpr_typed vt e1 e1' t1 h1
          simp [exprTypedB, Expression.type_, ih0.1, ih1.1]

/-- Revisiting an already-annotated expression recomputes the same
annotations: the expression visit is idempotent. -/
theorem visitExpr_idem (vt : VarTypes) :
    ∀ (e e' : Expression) (t : Type_),
      visitExpr vt e = .ok (e', t) → visitExpr vt e' = .ok (e', t)
  | .mk (.AtomicExpression a) τ, e', t, h => by
    cases a with
    | Literal l =>
      simp only [visitExpr] at h
      obtain ⟨rfl, rfl⟩ := by simpa using h
      simp [visitExpr]
    | Variable np =>
      simp only [visitExpr] at h
      split at h
      next => simp at h
      next g hg =>
        split at h
        next => simp at h
        next t0 hv =>
          obtain ⟨rfl, rfl⟩ := by simpa using h
          simp [visitExpr, hg, hv]
    | FnCall fc =>
      simp only [visitExpr] at h
      split at h
      next => simp at h
      next g hg =>
        split at h
        next => simp at h
        next t0 hv =>
          obtain ⟨rfl, rfl⟩ := by simpa using h
          simp [visitExpr, hg, hv]
    | StructInit si =>
      simp only [visitExpr] at h
      obtain ⟨rfl, rfl⟩ := by simpa using h
      simp [visitExpr]
  | .mk (.Unary op x) τ, e', t, h => by
    simp only [visitExpr] at h
    cases hx : visitExpr vt x with
    | error e1 =>
      rw [hx] at h
      simp [bind, Except.bind] at h
    | ok p =>
      obtain ⟨x', tx⟩ := p
      rw [hx] at h
      simp only [bind, Except.bind] at h
      cases hu : unop_type_resolver op tx with
      | error te => rw [hu] at h; simp at h
      | ok t0 =>
        rw [hu] at h
        obtain ⟨rfl, rfl⟩ := by simpa using h
        have ih := visitExpr_idem vt x x' tx hx
        simp [visitExpr, ih, hu, bind, Except.bind]
  | .mk (.Binary e0 op e1) τ, e', t, h => by
    simp only [visitExpr] at h
    cases h0 : visitExpr vt e0 with
    | error er =>
      rw [h0] at h
      simp [bind, Except.bind] at h
    | ok p0 =>
      obtain ⟨e0', t0⟩ := p0
      rw [h0] at h
      simp only [bind, Except.bind] at h
      cases h1 : visitExpr vt e1 with
      | error er =>
        rw [h1] at h
        simp [bind, Except.bind] at h
      | ok p1 =>
        obtain ⟨e1', t1⟩ := p1
        rw [h1] at h
        simp only [bind, Except.bind] at h
        cases hb : binop_type_resolver op t0 t1 with
        | error te => rw [hb] at h; simp at h
        | ok tr =>
          rw [hb] at h
          obtain ⟨rfl, rfl⟩ := by simpa using h
          have ih0 := visitExpr_idem vt e0 e0' t0 h0
          have ih1 := visitExpr_idem vt e1 e1' t1 h1
          simp [visitExpr, ih0, ih1, hb, bind, Except.bind]

end Tp

namespace Tp

/-- Revisiting an already-visited `VarDef` recomputes the same annotation. -/
theorem visitVarDef_idem (vt : VarTypes) {vd vd' : VarDef}
    (h : visitVarDef vt vd = .ok vd') : visitVarDef vt vd' = .ok vd' := by
  simp only [visitVarDef] at h ⊢
  split at h
  next => simp at h
  next g hg =>
    split at h
    next => simp at h
    next t0 hv =>
      obtain rfl := by simpa using h
      simp [hg, hv]

/-- A successful `VarDecl` visit leaves a typed initializer (when present). -/
theorem visitVarDecl_typed (vt : VarTypes) {d d' : VarDecl}
    (h : visitVarDecl vt d = .ok d') :
    ∀ e0, d'.expr = some e0 → exprTypedB e0 = true := by
  simp only [visitVarDecl] at h
  cases hv : visitVarDef vt d.var_def with
  | error e => rw [hv] at h; simp [bind, Except.bind] at h
  | ok vd =>
    rw [hv] at h
    simp only [bind, Except.bind] at h
    split at h
    next =>
      obtain rfl := by simpa using h
      intro e0 he0
      simp at he0
    next e hde =>
      cases he : visitExpr vt e with
      | error er => rw [he] at h; simp [bind, Except.bind] at h
      | ok p =>
        obtain ⟨e', te⟩ := p
        rw [he] at h
        simp only [bind, Except.bind] at h
        split at h
        next => simp at h
        next t0 ht0 =>
          split at h
          next => simp at h
          next hne =>
            obtain rfl := by simpa using h
            intro e0 he0
            obtain rfl : e' = e0 := by simpa using he0
            exact (visitExpr_typed vt e _ te he).1

/-- Revisiting an already-visited `VarDecl` recomputes the same result. -/
theorem visitVarDecl_idem (vt : VarTypes) {d d' : VarDecl}
    (h : visitVarDecl vt d = .ok d') : visitVarDecl vt d' = .ok d' := by
  simp only [visitVarDecl] at h
  cases hv : visitVarDef vt d.var_def with
  | error e => rw [hv] at h; simp [bind, Except.bind] at h
  | ok vd =>
    rw [hv] at h
    simp only [bind, Except.bind] at h
    split at h
    next =>
      obtain rfl := by simpa using h
      simp [visitVarDecl, visitVarDef_idem vt hv, bind, Except.bind]
    next e hde =>
      cases he : visitExpr vt e with
      | error er => rw [he] at h; simp [bind, Except.bind] at h
      | ok p =>
        obtain ⟨e', te⟩ := p
        rw [he] at h
        simp only [bind, Except.bind] at h
        split at h
        next => simp at h
        next t0 ht0 =>
          split at h
          next => simp at h
          next hne =>
            obtain rfl := by simpa using h
            simp [visitVarDecl, visitVarDef_idem vt hv, bind, Except.bind,
              visitExpr_idem vt e e' te he, ht0, hne]

/-- A successful `VarAssign` visit leaves a typed assigned expression. -/
theorem visitVarAssign_typed (vt : VarTypes) {a a' : VarAssign}
    (h : visitVarAssign vt a = .ok a') : exprTypedB a'.expr = true := by
  simp only [visitVarAssign] at h
  split at h
  next => simp at h
  next g hg =>
    split at h
    next => simp at h
    next t hv =>
      cases he : visitExpr vt a.expr with
      | error er => rw [he] at h; simp [bind, Except.bind] at h
      | ok p =>
        obtain ⟨e', te⟩ := p
        rw [he] at h
        simp only [bind, Except.bind] at h
        split at h
        next => simp at h
        next hne =>
          obtain rfl := by simpa using h
          simpa using (visitExpr_typed vt a.expr e' te he).1

/-- Revisiting an already-visited `VarAssign` recomputes the same result. -/
theorem visitVarAssign_idem (vt : VarTypes) {a a' : VarAssign}
    (h : visitVarAssign vt a = .ok a') : visitVarAssign vt a' = .ok a' := by
  simp only [visitVarAssign] at h
  split at h
  next => simp at h
  next g hg =>
    split at h
    next => simp at h
    next t hv =>
      cases he : visitExpr vt a.expr with
      | error er => rw [he] at h; simp [bind, Except.bind] at h
      | ok p =>
        obtain ⟨e', te⟩ := p
        rw [he] at h
        simp only [bind, Except.bind] at h
        split at h
        next => simp at h
        next hne =>
          obtain rfl := by simpa using h
          simp [visitVarAssign, hg, hv, visitExpr_idem vt a.expr e' te he,
            bind, Except.bind, hne]

end Tp

namespace Tp

/-- A successful optional-expression visit leaves it typed. -/
theorem visitExprOpt_typed (vt : VarTypes) {o o' : Option Expression}
    (h : visitExprOpt vt o = .ok o') : exprOptTypedB o' = true := by
  cases o with
  | none =>
    simp only [visitExprOpt, pure, Except.pure] at h
    obtain rfl := by simpa using h
    simp [exprOptTypedB]
  | some e =>
    simp only [visitExprOpt] at h
    cases he : visitExpr vt e with
    | error er => rw [he] at h; simp [bind, Except.bind] at h
    | ok p =>
      obtain ⟨e', t⟩ := p
      rw [he] at h
      simp only [bind, Except.bind, pure, Except.pure] at h
      obtain rfl := by simpa using h
      simp [exprOptTypedB, (visitExpr_typed vt e e' t he).1]

/-- Revisiting an already-visited optional expression is idempotent. -/
theorem visitExprOpt_idem (vt : VarTypes) {o o' : Option Expression}
    (h : visitExprOpt vt o = .ok o') : visitExprOpt vt o' = .ok o' := by
  cases o with
  | none =>
    simp only [visitExprOpt, pure, Except.pure] at h
    obtain rfl := by simpa using h
    simp [visitExprOpt, pure, Except.pure]
  | some e =>
    simp only [visitExprOpt] at h
    cases he : visitExpr vt e with
    | error er => rw [he] at h; simp [bind, Except.bind] at h
    | ok p =>
      obtain ⟨e', t⟩ := p
      rw [he] at h
      simp only [bind, Except.bind, pure, Except.pure] at h
      obtain rfl := by simpa using h
      simp [visitExprOpt, visitExpr_idem vt e e' t he, bind, Except.bind,
        pure, Except.pure]

mutual
/-- A successful statement visit leaves every visited expression typed. -/
theorem visitStatement_typed (vt : VarTypes) :
    ∀ (s s' : Statement), visitStatement vt s = .ok s' → stmtTypedB s' = true
  | .VarDecl d, s', h => by
    simp only [visitStatement] at h
    cases hd : visitVarDecl vt d with
    | error e => rw [hd] at h; simp [bind, Except.bind] at h
    | ok d' =>
      rw [hd] at h
      simp only [bind, Except.bind, pure, Except.pure] at h
      obtain rfl := by simpa using h
      simp only [stmtTypedB]
      split
      · rfl
      next e0 he0 => exact visitVarDecl_typed vt hd e0 he0
  | .VarAssign a, s', h => by
    simp only [visitStatement] at h
    cases ha : visitVarAssign vt a with
    | error e => rw [ha] at h; simp [bind, Except.bind] at h
    | ok a' =>
      rw [ha] at h
      simp only [bind, Except.bind, pure, Except.pure] at h
      obtain rfl := by simpa using h
      simp only [stmtTypedB]
      exact visitVarAssign_typed vt ha
  | .If i, s', h => by
    simp only [visitStatement] at h
    cases hi : visitIf vt i with
    | error e => rw [hi] at h; simp [bind, Except.bind] at h
    | ok i' =>
      rw [hi] at h
      simp only [bind, Except.bind, pure, Except.pure] at h
      obtain rfl := by simpa using h
      simp only [stmtTypedB]
      exact visitIf_typed vt i i' hi
  | .While w, s', h => by
    simp only [visitStatement] at h
    cases hw : visitWhile vt w with
    | error e => rw [hw] at h; simp [bind, Except.bind] at h
    | ok w' =>
      rw [hw] at h
      simp only [bind, Except.bind, pure, Except.pure] at h
      obtain rfl := by simpa using h
      simp only [stmtTypedB]
      exact visitWhile_typed vt w w' hw
  | .For f, s', h => by
    simp only [visitStatement] at h
    cases hf : visitFor vt f with
    | error e => rw [hf] at h; simp [bind, Except.bind] at h
    | ok f' =>
      rw [hf] at h
      simp only [bind, Except.bind, pure, Except.pure] at h
      obtain rfl := by simpa using h
      simp only [stmtTypedB]
      exact visitFor_typed vt f f' hf
  | .Return e, s', h => by
    simp only [visitStatement] at h
    cases he : visitExpr vt e with
    | error er => rw [he] at h; simp [bind, Except.bind] at h
    | ok p =>
      obtain ⟨e', t⟩ := p
      rw [he] at h
      simp only [bind, Except.bind, pure, Except.pure] at h
      obtain rfl := by simpa using h
      simp only [stmtTypedB]
      exact (visitExpr_typed vt e e' t he).1
  | .Break, s', h => by
    simp only [visitStatement, pure, Except.pure] at h
    obtain rfl := by simpa using h
    simp [stmtTypedB]
  | .Continue, s', h => by
    simp only [visitStatement, pure, Except.pure] at h
    obtain rfl := by simpa using h
    simp [stmtTypedB]
  | .Expression e, s', h => by
    simp only [visitStatement] at h
    cases he : visitExpr vt e with
    | error er => rw [he] at h; simp [bind, Except.bind] at h
    | ok p =>
      obtain ⟨e', t⟩ := p
      rw [he] at h
      simp only [bind, Except.bind, pure, Except.pure] at h
      obtain rfl := by simpa using h
      simp only [stmtTypedB]
      exact (visitExpr_typed vt e e' t he).1

/-- A successful optional-statement visit leaves it typed. -/
theorem visitStatementOpt_typed (vt : VarTypes) :
    ∀ (o o' : Option Statement), visitStatementOpt vt o = .ok o' → stmtOptTypedB o' = true
  | none, o', h => by
    simp only [visitStatementOpt, pure, Except.pure] at h
    obtain rfl := by simpa using h
    simp [stmtOptTypedB]
  | some s, o', h => by
    simp only [visitStatementOpt] at h
    cases hs : visitStatement vt s with
    | error e => rw [hs] at h; simp [bind, Except.bind] at h
    | ok s' =>
      rw [hs] at h
      simp only [bind, Except.bind, pure, Except.pure] at h
      obtain rfl := by simpa using h
      simp only [stmtOptTypedB]
      exact visitStatement_typed vt s s' hs

/-- A successful `If` visit leaves every visited expression typed. -/
theorem visitIf_typed (vt : VarTypes) :
    ∀ (i i' : If), visitIf vt i = .ok i' → ifTypedB i' = true
  | .mk c b els, i', h => by
    simp only [visitIf] at h
    cases hc : visitExpr vt c with
    | error er => rw [hc] at h; simp [bind, Except.bind] at h
    | ok p =>
      obtain ⟨c', tc⟩ := p
      rw [hc] at h
      simp only [bind, Except.bind] at h
      cases hb : visitBlock vt b with
      | error er => rw [hb] at h; simp [bind, Except.bind] at h
      | ok b' =>
        rw [hb] at h
        simp only [bind, Except.bind] at h
        cases hels : visitIfOpt vt els with
        | error er => rw [hels] at h; simp [bind, Except.bind] at h
        | ok els' =>
          rw [hels] at h
          simp only [bind, Except.bind, pure, Except.pure] at h
          obtain rfl := by simpa using h
          simp [ifTypedB, (visitExpr_typed vt c c' tc hc).1,
            visitBlock_typed vt b b' hb, visitIfOpt_typed vt els els' hels]

/-- A successful optional-`If` visit leaves it typed. -/
theorem visitIfOpt_typed (vt : VarTypes) :
    ∀ (o o' : Option If), visitIfOpt vt o = .ok o' → ifOptTypedB o' = true
  | none, o', h => by
    simp only [visitIfOpt, pure, Except.pure] at h
    obtain rfl := by simpa using h
    simp [ifOptTypedB]
  | some i, o', h => by
    simp only [visitIfOpt] at h
    cases hi : visitIf vt i with
    | error e => rw [hi] at h; simp [bind, Except.bind] at h
    | ok i' =>
      rw [hi] at h
      simp only [bind, Except.bind, pure, Except.pure] at h
      obtain rfl := by simpa using h
      simp only [ifOptTypedB]
      exact visitIf_typed vt i i' hi

/-- A successful `While` visit leaves every visited expression typed. -/
theorem visitWhile_typed (vt : VarTypes) :
    ∀ (w w' : While), visitWhile vt w = .ok w' → whileTypedB w' = true
  | .mk c b, w', h => by
    simp only [visitWhile] at h
    cases hc : visitExpr vt c with
    | error er => rw [hc] at h; simp [bind, Except.bind] at h
    | ok p =>
      obtain ⟨c', tc⟩ := p
      rw [hc] at h
      simp only [bind, Except.bind] at h
      cases hb : visitBlock vt b with
      | error er => rw [hb] at h; simp [bind, Except.bind] at h
      | ok b' =>
        rw [hb] at h
        simp only [bind, Except.bind, pure, Except.pure] at h
        obtain rfl := by simpa using h
        simp [whileTypedB, (visitExpr_typed vt c c' tc hc).1,
          visitBlock_typed vt b b' hb]

/-- A successful `For` visit leaves every visited expression typed. -/
theorem visitFor_typed (vt : VarTypes) :
    ∀ (f f' : For), visitFor vt f = .ok f' → forTypedB f' = true
  | .mk init cond step body, f', h => by
    simp only [visitFor] at h
    cases hi : visitStatementOpt vt init with
    | error er => rw [hi] at h; simp [bind, Except.bind] at h
    | ok init' =>
      rw [hi] at h
      simp only [bind, Except.bind] at h
      cases hc : visitExprOpt vt cond with
      | error er => rw [hc] at h; simp [bind, Except.bind] at h
      | ok cond' =>
        rw [hc] at h
        simp only [bind, Except.bind] at h
        cases hs : visitStatementOpt vt step with
        | error er => rw [hs] at h; simp [bind, Except.bind] at h
        | ok step' =>
          rw [hs] at h
          simp only [bind, Except.bind] at h
          cases hb : visitBlock vt body with
          | error er => rw [hb] at h; simp [bind, Except.bind] at h
          | ok body' =>
            rw [hb] at h
            simp only [bind, Except.bind, pure, Except.pure] at h
            obtain rfl := by simpa using h
            simp [forTypedB, visitStatementOpt_typed vt init init' hi,
              visitExprOpt_typed vt hc, visitStatementOpt_typed vt step step' hs,
              visitBlock_typed vt body body' hb]

/-- A successful `StatementBlock` visit leaves it typed. -/
theorem visitStmtBlock_typed (vt : VarTypes) :
    ∀ (sb sb' : StatementBlock), visitStmtBlock vt sb = .ok sb' → sbTypedB sb' = true
  | .Statement s, sb', h => by
    simp only [visitStmtBlock] at h
    cases hs : visitStatement vt s with
    | error e => rw [hs] at h; simp [bind, Except.bind] at h
    | ok s' =>
      rw [hs] at h
      simp only [bind, Except.bind, pure, Except.pure] at h
      obtain rfl := by simpa using h
      simp only [sbTypedB]
      exact visitStatement_typed vt s s' hs
  | .Block b, sb', h => by
    simp only [visitStmtBlock] at h
    cases hb : visitBlock vt b with
    | error e => rw [hb] at h; simp [bind, Except.bind] at h
    | ok b' =>
      rw [hb] at h
      simp only [bind, Except.bind, pure, Except.pure] at h
      obtain rfl := by simpa using h
      simp only [sbTypedB]
      exact visitBlock_typed vt b b' hb

/-- A successful `Block` visit leaves its statement list typed. -/
theorem visitBlock_typed (vt : VarTypes) :
    ∀ (b b' : Block), visitBlock vt b = .ok b' → blockTypedB b' = true
  | .mk defs stmts, b', h => by
    simp only [visitBlock] at h
    cases hs : visitStmtBlocks vt stmts with
    | error e => rw [hs] at h; simp [bind, Except.bind] at h
    | ok stmts' =>
      rw [hs] at h
      simp only [bind, Except.bind, pure, Except.pure] at h
      obtain rfl := by simpa using h
      simp only [blockTypedB]
      exact visitStmtBlocks_typed vt stmts stmts' hs

/-- A successful visit of a statement list leaves every element typed. -/
theorem visitStmtBlocks_typed (vt : VarTypes) :
    ∀ (l l' : List StatementBlock), visitStmtBlocks vt l = .ok l' → sbsTypedB l' = true
  | [], l', h => by
    simp only [visitStmtBlocks, pure, Except.pure] at h
    obtain rfl := by simpa using h
    simp [sbsTypedB]
  | sb :: rest, l', h => by
    simp only [visitStmtBlocks] at h
    cases hsb : visitStmtBlock vt sb with
    | error e => rw [hsb] at h; simp [bind, Except.bind] at h
    | ok sb' =>
      rw [hsb] at h
      simp only [bind, Except.bind] at h
      cases hrest : visitStmtBlocks vt rest with
      | error e => rw [hrest] at h; simp [bind, Except.bind] at h
      | ok rest' =>
        rw [hrest] at h
        simp only [bind, Except.bind, pure, Except.pure] at h
        obtain rfl := by simpa using h
        simp [sbsTypedB, visitStmtBlock_typed vt sb sb' hsb,
          visitStmtBlocks_typed vt rest rest' hrest]
end

end Tp

namespace Tp

mutual
/-- Revisiting an already-visited statement recomputes the same result. -/
theorem visitStatement_idem (vt : VarTypes) :
    ∀ (s s' : Statement), visitStatement vt s = .ok s' → visitStatement vt s' = .ok s'
  | .VarDecl d, s', h => by
    simp only [visitStatement] at h
    cases hd : visitVarDecl vt d with
    | error e => rw [hd] at h; simp [bind, Except.bind] at h
    | ok d' =>
      rw [hd] at h
      simp only [bind, Except.bind, pure, Except.pure] at h
      obtain rfl := by simpa using h
      simp [visitStatement, visitVarDecl_idem vt hd, bind, Except.bind,
        pure, Except.pure]
  | .VarAssign a, s', h => by
    simp only [visitStatement] at h
    cases ha : visitVarAssign vt a with
    | error e => rw [ha] at h; simp [bind, Except.bind] at h
    | ok a' =>
      rw [ha] at h
      simp only [bind, Except.bind, pure, Except.pure] at h
      obtain rfl := by simpa using h
      simp [visitStatement, visitVarAssign_idem vt ha, bind, Except.bind,
        pure, Except.pure]
  | .If i, s', h => by
    simp only [visitStatement] at h
    cases hi : visitIf vt i with
    | error e => rw [hi] at h; simp [bind, Except.bind] at h
    | ok i' =>
      rw [hi] at h
      simp only [bind, Except.bind, pure, Except.pure] at h
      obtain rfl := by simpa using h
      simp [visitStatement, visitIf_idem vt i i' hi, bind, Except.bind,
        pure, Except.pure]
  | .While w, s', h => by
    simp only [visitStatement] at h
    cases hw : visitWhile vt w with
    | error e => rw [hw] at h; simp [bind, Except.bind] at h
    | ok w' =>
      rw [hw] at h
      simp only [bind, Except.bind, pure, Except.pure] at h
      obtain rfl := by simpa using h
      simp [visitStatement, visitWhile_idem vt w w' hw, bind, Except.bind,
        pure, Except.pure]
  | .For f, s', h => by
    simp only [visitStatement] at h
    cases hf : visitFor vt f with
    | error e => rw [hf] at h; simp [bind, Except.bind] at h
    | ok f' =>
      rw [hf] at h
      simp only [bind, Except.bind, pure, Except.pure] at h
      obtain rfl := by simpa using h
      simp [visitStatement, visitFor_idem vt f f' hf, bind, Except.bind,
        pure, Except.pure]
  | .Return e, s', h => by
    simp only [visitStatement] at h
    cases he : visitExpr vt e with
    | error er => rw [he] at h; simp [bind, Except.bind] at h
    | ok p =>
      obtain ⟨e', t⟩ := p
      rw [he] at h
      simp only [bind, Except.bind, pure, Except.pure] at h
      obtain rfl := by simpa using h
      simp [visitStatement, visitExpr_idem vt e e' t he, bind, Except.bind,
        pure, Except.pure]
  | .Break, s', h => by
    simp only [visitStatement, pure, Except.pure] at h
    obtain rfl := by simpa using h
    simp [visitStatement, pure, Except.pure]
  | .Continue, s', h => by
    simp only [visitStatement, pure, Except.pure] at h
    obtain rfl := by simpa using h
    simp [visitStatement, pure, Except.pure]
  | .Expression e, s', h => by
    simp only [visitStatement] at h
    cases he : visitExpr vt e with
    | error er => rw [he] at h; simp [bind, Except.bind] at h
    | ok p =>
      obtain ⟨e', t⟩ := p
      rw [he] at h
      simp only [bind, Except.bind, pure, Except.pure] at h
      obtain rfl := by simpa using h
      simp [visitStatement, visitExpr_idem vt e e' t he, bind, Except.bind,
        pure, Except.pure]

/-- Revisiting an already-visited optional statement is idempotent. -/
theorem visitStatementOpt_idem (vt : VarTypes) :
    ∀ (o o' : Option Statement), visitStatementOpt vt o = .ok o' →
      visitStatementOpt vt o' = .ok o'
  | none, o', h => by
    simp only [visitStatementOpt, pure, Except.pure] at h
    obtain rfl := by simpa using h
    simp [visitStatementOpt, pure, Except.pure]
  | some s, o', h => by
    simp only [visitStatementOpt] at h
    cases hs : visitStatement vt s with
    | error e => rw [hs] at h; simp [bind, Except.bind] at h
    | ok s' =>
      rw [hs] at h
      simp only [bind, Except.bind, pure, Except.pure] at h
      obtain rfl := by simpa using h
      simp [visitStatementOpt, visitStatement_idem vt s s' hs, bind,
        Except.bind, pure, Except.pure]

/-- Revisiting an already-visited `If` is idempotent. -/
theorem visitIf_idem (vt : VarTypes) :
    ∀ (i i' : If), visitIf vt i = .ok i' → visitIf vt i' = .ok i'
  | .mk c b els, i', h => by
    simp only [visitIf] at h
    cases hc : visitExpr vt c with
    | error er => rw [hc] at h; simp [bind, Except.bind] at h
    | ok p =>
      obtain ⟨c', tc⟩ := p
      rw [hc] at h
      simp only [bind, Except.bind] at h
      cases hb : visitBlock vt b with
      | error er => rw [hb] at h; simp [bind, Except.bind] at h
      | ok b' =>
        rw [hb] at h
        simp only [bind, Except.bind] at h
        cases hels : visitIfOpt vt els with
        | error er => rw [hels] at h; simp [bind, Except.bind] at h
        | ok els' =>
          rw [hels] at h
          simp only [bind, Except.bind, pure, Except.pure] at h
          obtain rfl := by simpa using h
          simp [visitIf, visitExpr_idem vt c c' tc hc, visitBlock_idem vt b b' hb,
            visitIfOpt_idem vt els els' hels, bind, Except.bind, pure, Except.pure]

/-- Revisiting an already-visited optional `If` is idempotent. -/
theorem visitIfOpt_idem (vt : VarTypes) :
    ∀ (o o' : Option If), visitIfOpt vt o = .ok o' → visitIfOpt vt o' = .ok o'
  | none, o', h => by
    simp only [visitIfOpt, pure, Except.pure] at h
    obtain rfl := by simpa using h
    simp [visitIfOpt, pure, Except.pure]
  | some i, o', h => by
    simp only [visitIfOpt] at h
    cases hi : visitIf vt i with
    | error e => rw [hi] at h; simp [bind, Except.bind] at h
    | ok i' =>
      rw [hi] at h
      simp only [bind, Except.bind, pure, Except.pure] at h
      obtain rfl := by simpa using h
      simp [visitIfOpt, visitIf_idem vt i i' hi, bind, Except.bind,
        pure, Except.pure]

/-- Revisiting an already-visited `While` is idempotent. -/
theorem visitWhile_idem (vt : VarTypes) :
    ∀ (w w' : While), visitWhile vt w = .ok w' → visitWhile vt w' = .ok w'
  | .mk c b, w', h => by
    simp only [visitWhile] at h
    cases hc : visitExpr vt c with
    | error er => rw [hc] at h; simp [bind, Except.bind] at h
    | ok p =>
      obtain ⟨c', tc⟩ := p
      rw [hc] at h
      simp only [bind, Except.bind] at h
      cases hb : visitBlock vt b with
      | error er => rw [hb] at h; simp [bind, Except.bind] at h
      | ok b' =>
        rw [hb] at h
        simp only [bind, Except.bind, pure, Except.pure] at h
        obtain rfl := by simpa using h
        simp [visitWhile, visitExpr_idem vt c c' tc hc,
          visitBlock_idem vt b b' hb, bind, Except.bind, pure, Except.pure]

/-- Revisiting an already-visited `For` is idempotent. -/
theorem visitFor_idem (vt : VarTypes) :
    ∀ (f f' : For), visitFor vt f = .ok f' → visitFor vt f' = .ok f'
  | .mk init cond step body, f', h => by
    simp only [visitFor] at h
    cases hi : visitStatementOpt vt init with
    | error er => rw [hi] at h; simp [bind, Except.bind] at h
    | ok init' =>
      rw [hi] at h
      simp only [bind, Except.bind] at h
      cases hc : visitExprOpt vt cond with
      | error er => rw [hc] at h; simp [bind, Except.bind] at h
      | ok cond' =>
        rw [hc] at h
        simp only [bind, Except.bind] at h
        cases hs : visitStatementOpt vt step with
        | error er => rw [hs] at h; simp [bind, Except.bind] at h
        | ok step' =>
          rw [hs] at h
          simp only [bind, Except.bind] at h
          cases hb : visitBlock vt body with
          | error er => rw [hb] at h; simp [bind, Except.bind] at h
          | ok body' =>
            rw [hb] at h
            simp only [bind, Except.bind, pure, Except.pure] at h
            obtain rfl := by simpa using h
            simp [visitFor, visitStatementOpt_idem vt init init' hi,
              visitExprOpt_idem vt hc, visitStatementOpt_idem vt step step' hs,
              visitBlock_idem vt body body' hb, bind, Except.bind, pure, Except.pure]

/-- Revisiting an already-visited `StatementBlock` is idempotent. -/
theorem visitStmtBlock_idem (vt : VarTypes) :
    ∀ (sb sb' : StatementBlock), visitStmtBlock vt sb = .ok sb' →
      visitStmtBlock vt sb' = .ok sb'
  | .Statement s, sb', h => by
    simp only [visitStmtBlock] at h
    cases hs : visitStatement vt s with
    | error e => rw [hs] at h; simp [bind, Except.bind] at h
    | ok s' =>
      rw [hs] at h
      simp only [bind, Except.bind, pure, Except.pure] at h
      obtain rfl := by simpa using h
      simp [visitStmtBlock, visitStatement_idem vt s s' hs, bind, Except.bind,
        pure, Except.pure]
  | .Block b, sb', h => by
    simp only [visitStmtBlock] at h
    cases hb : visitBlock vt b with
    | error e => rw [hb] at h; simp [bind, Except.bind] at h
    | ok b' =>
      rw [hb] at h
      simp only [bind, Except.bind, pure, Except.pure] at h
      obtain rfl := by simpa using h
      simp [visitStmtBlock, visitBlock_idem vt b b' hb, bind, Except.bind,
        pure, Except.pure]

/-- Revisiting an already-visited `Block` is idempotent. -/
theorem visitBlock_idem (vt : VarTypes) :
    ∀ (b b' : Block), visitBlock vt b = .ok b' → visitBlock vt b' = .ok b'
  | .mk defs stmts, b', h => by
    simp only [visitBlock] at h
    cases hs : visitStmtBlocks vt stmts with
    | error e => rw [hs] at h; simp [bind, Except.bind] at h
    | ok stmts' =>
      rw [hs] at h
      simp only [bind, Except.bind, pure, Except.pure] at h
      obtain rfl := by simpa using h
      simp [visitBlock, visitStmtBlocks_idem vt stmts stmts' hs, bind,
        Except.bind, pure, Except.pure]

/-- Revisiting an already-visited statement list is idempotent. -/
theorem visitStmtBlocks_idem (vt : VarTypes) :
    ∀ (l l' : List StatementBlock), visitStmtBlocks vt l = .ok l' →
      visitStmtBlocks vt l' = .ok l'
  | [], l', h => by
    simp only [visitStmtBlocks, pure, Except.pure] at h
    obtain rfl := by simpa using h
    simp [visitStmtBlocks, pure, Except.pure]
  | sb :: rest, l', h => by
    simp only [visitStmtBlocks] at h
    cases hsb : visitStmtBlock vt sb with
    | error e => rw [hsb] at h; simp [bind, Except.bind] at h
    | ok sb' =>
      rw [hsb] at h
      simp only [bind, Except.bind] at h
      cases hrest : visitStmtBlocks vt rest with
      | error e => rw [hrest] at h; simp [bind, Except.bind] at h
      | ok rest' =>
        rw [hrest] at h
        simp only [bind, Except.bind, pure, Except.pure] at h
        obtain rfl := by simpa using h
        simp [visitStmtBlocks, visitStmtBlock_idem vt sb sb' hsb,
          visitStmtBlocks_idem vt rest rest' hrest, bind, Except.bind,
          pure, Except.pure]
end

end Tp

namespace Tp

/-- Embeds `setStmts` installs exactly the given statement list. -/
theorem FnDef.setStmts_statements : ∀ (fd : FnDef) (s : List StatementBlock),
    (fd.setStmts s).body.statements = s := by
  intro fd s
  cases fd with
  | mk n a b => cases b; rfl

/-- Two consecutive `setStmts` keep only the last list. -/
theorem FnDef.setStmts_setStmts : ∀ (fd : FnDef) (s s' : List StatementBlock),
    (fd.setStmts s).setStmts s' = fd.setStmts s' := by
  intro fd s s'
  cases fd with
  | mk n a b => cases b; rfl

/-- After a successful per-function loop, every function's statement list is
fully typed (in the `sbsTypedB` sense). -/
theorem insertTypesGo_typed (vt : VarTypes) :
    ∀ (l l' : List (GlobalResolvedName × FnDef)), insertTypesGo vt l = (.ok (), l') →
      (l'.all (fun q => sbsTypedB q.2.body.statements)) = true
  | [], l', h => by
    simp only [insertTypesGo] at h
    obtain ⟨-, rfl⟩ := by simpa [Prod.ext_iff] using h
    rfl
  | (n, fd) :: rest, l', h => by
    simp only [insertTypesGo] at h
    cases hv : visitStmtBlocks vt fd.body.statements with
    | error e => rw [hv] at h; simp [Prod.ext_iff] at h
    | ok stmts' =>
      rw [hv] at h
      rcases hgo : insertTypesGo vt rest with ⟨r, rest'⟩
      rw [hgo] at h
      obtain ⟨rfl, rfl⟩ := by simpa [Prod.ext_iff] using h
      have htail := insertTypesGo_typed vt rest rest' hgo
      simp [List.all_cons, FnDef.setStmts_statements,
        visitStmtBlocks_typed vt fd.body.statements stmts' hv, htail]

/-- Rerunning the per-function loop on its own successful output reproduces
that output. -/
theorem insertTypesGo_idem (vt : VarTypes) :
    ∀ (l l' : List (GlobalResolvedName × FnDef)), insertTypesGo vt l = (.ok (), l') →
      insertTypesGo vt l' = (.ok (), l')
  | [], l', h => by
    simp only [insertTypesGo] at h
    obtain ⟨-, rfl⟩ := by simpa [Prod.ext_iff] using h
    rfl
  | (n, fd) :: rest, l', h => by
    simp only [insertTypesGo] at h
    cases hv : visitStmtBlocks vt fd.body.statements with
    | error e => rw [hv] at h; simp [Prod.ext_iff] at h
    | ok stmts' =>
      rw [hv] at h
      rcases hgo : insertTypesGo vt rest with ⟨r, rest'⟩
      rw [hgo] at h
      obtain ⟨rfl, rfl⟩ := by simpa [Prod.ext_iff] using h
      have htail := insertTypesGo_idem vt rest rest' hgo
      simp [insertTypesGo, FnDef.setStmts_statements,
        visitStmtBlocks_idem vt fd.body.statements stmts' hv, htail,
        FnDef.setStmts_setStmts]

/-- If the per-function loop stops with an error, the failing function —
whose statement visiting produced exactly that error, and whose statement
list was non-empty — appears in the output with an EMPTY statement list. -/
theorem insertTypesGo_error (vt : VarTypes) :
    ∀ (l : List (GlobalResolvedName × FnDef)) (er : VErr)
      (l' : List (GlobalResolvedName × FnDef)),
      insertTypesGo vt l = (.error er, l') →
      ∃ n fd, (n, fd) ∈ l ∧ fd.body.statements ≠ [] ∧
        visitStmtBlocks vt fd.body.statements = .error er ∧
        (n, fd.setStmts []) ∈ l'
  | [], er, l', h => by
    simp only [insertTypesGo] at h
    simp [Prod.ext_iff] at h
  | (n, fd) :: rest, er, l', h => by
    simp only [insertTypesGo] at h
    cases hv : visitStmtBlocks vt fd.body.statements with
    | error e =>
      rw [hv] at h
      obtain ⟨he, rfl⟩ := by simpa [Prod.ext_iff] using h
      refine ⟨n, fd, by simp, ?_, ?_, by simp⟩
      · intro hnil
        rw [hnil] at hv
        simp [visitStmtBlocks, pure, Except.pure] at hv
      · rw [hv, he]
    | ok stmts' =>
      rw [hv] at h
      rcases hgo : insertTypesGo vt rest with ⟨r, rest'⟩
      rw [hgo] at h
      obtain ⟨rfl, rfl⟩ := by simpa [Prod.ext_iff] using h
      obtain ⟨n0, fd0, hmem, hne, hvis, hmem'⟩ :=
        insertTypesGo_error vt rest er rest' hgo
      exact ⟨n0, fd0, List.mem_cons_of_mem _ hmem, hne, hvis,
        List.mem_cons_of_mem _ hmem'⟩

/-- The call expression `f(1)` whose argument is the untyped literal `1`. -/
def callF1 : Expression := .mk (.AtomicExpression (.FnCall (.mk refF [litOne]))) none

/-- A `main` whose body is the single call statement `f(1);`. -/
def fnMainCall : FnDef := .mk refMain [] (.mk [] [.Statement (.Expression callF1)])

/-- Program with `fnMainCall` as its single function. -/
def progCall : FrontProgram := ⟨⟨[(grnMain, fnMainCall)], [], []⟩⟩

/-- Extract the `type_` annotation of the first argument of the call heading
the first function's body. -/
def first_call_arg_type (p : FrontProgram) : Option (Option Type_) :=
  match p.definitions.function_definitions with
  | (_, fd) :: _ =>
    match fd.body.statements with
    | .Statement (.Expression (.mk (.AtomicExpression (.FnCall (.mk _ (a :: _)))) _)) :: _ =>
      some a.type_
    | _ => none
  | _ => none

/-- The boolean literal `true`, untyped. -/
def litTrue : Expression := .mk (.AtomicExpression (.Literal (.Bool true))) none

/-- A `main` whose body is the single ill-typed assignment `x = true;`
(with `x : Int` in `var_types`). -/
def fnMainBad : FnDef :=
  .mk refMain [] (.mk [] [.Statement (.VarAssign ⟨⟨refX, []⟩, litTrue⟩)])

/-- Program with `fnMainBad` as its single function. -/
def progBad : FrontProgram := ⟨⟨[(grnMain, fnMainBad)], [], []⟩⟩

end Tp

/-- C2 (counterexample): `insert_types` succeeds on a program whose `main`
body is the call `f(1);`, yet the call's argument expression still carries
`type_ = None` in the result — argument expressions of function calls are
never visited. -/
theorem C2_counterexample :
    (Tp.insert_types Tp.progCall Tp.vtF).1 = .ok ()
    ∧ Tp.first_call_arg_type (Tp.insert_types Tp.progCall Tp.vtF).2 = some none := by
  refine ⟨rfl, rfl⟩

/-- C2 (amended): after `insert_types` returns `Ok`, every expression node the
pass VISITS in the merged function bodies has `type_ ≠ None` (statement
expressions, conditions, initializers, return values, assignment right-hand
sides, and unary/binary operand chains); argument expressions of function
calls (and expressions nested in compound literals) are not visited and may
keep `type_ = None`. -/
theorem C2_theorem (p p' : Tp.FrontProgram) (vt : Tp.VarTypes)
    (h : Tp.insert_types p vt = (.ok (), p')) :
    (p'.definitions.function_definitions.all
      (fun q => Tp.sbsTypedB q.2.body.statements)) = true := by
  unfold Tp.insert_types at h
  rcases hgo : Tp.insertTypesGo vt p.definitions.function_definitions with ⟨r, fns⟩
  rw [hgo] at h
  obtain ⟨rfl, rfl⟩ := by simpa [Prod.ext_iff] using h
  simpa using Tp.insertTypesGo_typed vt _ fns hgo

/-- C2 (witness): the amended theorem applied to the `f(1);` program. -/
theorem C2_witness :
    ((Tp.insert_types Tp.progCall Tp.vtF).2.definitions.function_definitions.all
      (fun q => Tp.sbsTypedB q.2.body.statements)) = true :=
  C2_theorem Tp.progCall (Tp.insert_types Tp.progCall Tp.vtF).2 Tp.vtF rfl

/-- C8: running `insert_types` again, with the same `var_types`, on a program
on which it already returned `Ok` returns `Ok` and leaves the program
unchanged: the pass is idempotent. -/
theorem C8_theorem (p p' : Tp.FrontProgram) (vt : Tp.VarTypes)
    (h : Tp.insert_types p vt = (.ok (), p')) :
    Tp.insert_types p' vt = (.ok (), p') := by
  unfold Tp.insert_types at h ⊢
  rcases hgo : Tp.insertTypesGo vt p.definitions.function_definitions with ⟨r, fns⟩
  rw [hgo] at h
  obtain ⟨rfl, rfl⟩ := by simpa [Prod.ext_iff] using h
  have hi := Tp.insertTypesGo_idem vt _ fns hgo
  simp only [hi]

/-- C8 (witness): idempotence at the concrete `f(1);` program. -/
theorem C8_witness :
    Tp.insert_types (Tp.insert_types Tp.progCall Tp.vtF).2 Tp.vtF
      = (.ok (), (Tp.insert_types Tp.progCall Tp.vtF).2) :=
  C8_theorem Tp.progCall (Tp.insert_types Tp.progCall Tp.vtF).2 Tp.vtF rfl

/-- C9: if `insert_types` returns a `TypeError`, the function being checked
was left with its statements drained: some function of the input whose
(non-empty) statement list's visit produced exactly that error appears in the
output program with an empty statement list. -/
theorem C9_theorem (p p' : Tp.FrontProgram) (vt : Tp.VarTypes) (te : Tp.TypeError)
    (h : Tp.insert_types p vt = (.error (.typeError te), p')) :
    ∃ n fd, (n, fd) ∈ p.definitions.function_definitions ∧
      fd.body.statements ≠ [] ∧
      Tp.visitStmtBlocks vt fd.body.statements = .error (.typeError te) ∧
      (n, fd.setStmts []) ∈ p'.definitions.function_definitions := by
  unfold Tp.insert_types at h
  rcases hgo : Tp.insertTypesGo vt p.definitions.function_definitions with ⟨r, fns⟩
  rw [hgo] at h
  obtain ⟨rfl, rfl⟩ := by simpa [Prod.ext_iff] using h
  simpa using Tp.insertTypesGo_error vt _ _ fns hgo

/-- C9 (witness): the theorem applied to the program whose `main` contains
the ill-typed assignment `x = true;` with `x : Int`. -/
theorem C9_witness :
    ∃ n fd, (n, fd) ∈ Tp.progBad.definitions.function_definitions ∧
      fd.body.statements ≠ [] ∧
      Tp.visitStmtBlocks Tp.vtInt fd.body.statements
        = .error (.typeError .MultipleTypes) ∧
      (n, fd.setStmts []) ∈
        (Tp.insert_types Tp.progBad Tp.vtInt).2.definitions.function_definitions :=
  C9_theorem Tp.progBad (Tp.insert_types Tp.progBad Tp.vtInt).2 Tp.vtInt
    .MultipleTypes rfl

